import Mathlib

/-!
Verification of the GoalManager goal-and-attachment ledger.

The contract is shallowly embedded: addresses, ids, timestamps and asset
amounts are `Nat`; storage is a record of total functions updated pointwise;
every external entry point is a pure function from its arguments, the oracle
view of the supplier vaults, the caller, the current time and the pre-state
to `Except Err GMState` (a revert is `.error`, mirroring EVM rollback).
-/

namespace GoalManager

/-- Pointwise function update, used to model storage-mapping writes. -/
def upd {α β : Type} [DecidableEq α] (f : α → β) (a : α) (b : β) : α → β :=
  fun x => if x = a then b else f x

@[simp] theorem upd_same {α β : Type} [DecidableEq α] (f : α → β) (a : α) (b : β) :
    upd f a b a = b := by simp [upd]

@[simp] theorem upd_ne {α β : Type} [DecidableEq α] (f : α → β) (a : α) (b : β)
    {x : α} (h : x ≠ a) : upd f a b x = f x := by simp [upd, h]

/-- The five components returned by `ISupplierVaultMinimal.getUserDeposit`. -/
structure DepositView where
  principal : Nat
  currentValue : Nat
  yieldEarned : Nat
  lockEnd : Nat
  canWithdraw : Bool
deriving DecidableEq, Repr

/-- Read-only view of the supplier vaults: `getUserDeposit` and
`isDepositPledged`, indexed by (vault address, owner, depositId). -/
structure Oracle where
  getUserDeposit : Nat → Nat → Nat → DepositView
  isDepositPledged : Nat → Nat → Nat → Bool

/-- The `Goal` storage struct. -/
structure Goal where
  id : Nat
  creator : Nat
  vault : Nat
  targetAmount : Nat
  targetDate : Nat
  metadataURI : String
  createdAt : Nat
  cancelled : Bool
  completed : Bool
deriving DecidableEq, Repr

/-- The `Attachment` storage struct. -/
structure Attachment where
  owner : Nat
  depositId : Nat
  attachedAt : Nat
  pledged : Bool
deriving DecidableEq, Repr

/-- An attempted call-out to the leaderboard (the try/catch call sites). -/
inductive Notif where
  | recordDeposit (user amount : Nat)
  | recordGoalCompletion (user goalId totalValue : Nat)
deriving DecidableEq, Repr

/-- One constructor per distinct revert message of the contract. -/
inductive Err where
  | CreationPausedErr
  | InvalidVault
  | InvalidCreator
  | InvalidUser
  | TargetTooSoon
  | QuicksaveExists
  | NotAuthorizedNotifier
  | NotAuthorizedRole
  | AttachmentsPausedErr
  | InvalidGoal
  | GoalWindowPassed
  | NoDeposits
  | GoalAttachmentCap
  | PerUserCapForThisGoal
  | DepositNotFoundOrZero
  | DepositAlreadyUnlocked
  | DepositAlreadyAttached
  | SameGoal
  | DifferentVaults
  | InvalidGoalState
  | NotAttachedToFromGoal
  | AttachmentPledged
  | TargetGoalCap
  | DepositNotFound
  | DepositLocked
  | NoIndices
  | IndexOOB
  | IndicesNotDescending
  | NotOwner
  | NotPledgedInVault
  | AttachmentNotFound
  | AlreadyCancelled
  | NotPermitted
  | HasPledgedAttachments
  | NotAllowed
  | NotCompletedOrNoTarget
  | InvalidLimits
  | InvalidNotifier
  | InvalidRange
deriving DecidableEq, Repr

/-- Role identifiers (`DEFAULT_ADMIN_ROLE`, `KEEPER_ROLE`, `BACKEND_ROLE`). -/
def ADMIN_ROLE : Nat := 0
def KEEPER_ROLE : Nat := 1
def BACKEND_ROLE : Nat := 2

def MIN_LOCK_PERIOD : Nat := 2592000

/-- The whole storage of the GoalManager contract. -/
structure GMState where
  goalCounter : Nat
  goals : Nat → Goal
  attachments : Nat → List Attachment
  depositToGoal : Nat × Nat × Nat → Nat
  quicksaveGoalOf : Nat → Nat → Nat
  notifiers : Nat → Bool
  maxAttachmentsPerGoal : Nat
  maxAttachmentsPerUser : Nat
  attachmentsPaused : Bool
  creationPaused : Bool
  leaderboard : Nat
  roles : Nat → Nat → Bool
  notifs : List Notif

def zeroGoal : Goal :=
  { id := 0, creator := 0, vault := 0, targetAmount := 0, targetDate := 0
    metadataURI := "", createdAt := 0, cancelled := false, completed := false }

def dfltAttachment : Attachment :=
  { owner := 0, depositId := 0, attachedAt := 0, pledged := false }

instance : Inhabited Attachment := ⟨dfltAttachment⟩

/-- `keccak256(abi.encodePacked(vault, owner, depositId))`, modelled as the
triple itself (the hash is assumed collision-free). -/
def depositKey (vault owner depositId : Nat) : Nat × Nat × Nat :=
  (vault, owner, depositId)

/-- Index of the first element satisfying `p` (the linear-scan loops of
`transferDeposit` and `reportPledgedAttachment`). -/
def findFirstIdx {α : Type} (p : α → Bool) : List α → Option Nat
  | [] => none
  | a :: l => if p a then some 0 else (findFirstIdx p l).map (· + 1)

/-- State after `initialize(admin, maxPerGoal, maxPerUser)` on a fresh proxy. -/
def initialState (admin maxPerGoal maxPerUser : Nat) : GMState where
  goalCounter := 1
  goals := fun _ => zeroGoal
  attachments := fun _ => []
  depositToGoal := fun _ => 0
  quicksaveGoalOf := fun _ _ => 0
  notifiers := fun _ => false
  maxAttachmentsPerGoal := if maxPerGoal = 0 then 200 else maxPerGoal
  maxAttachmentsPerUser := if maxPerUser = 0 then 500 else maxPerUser
  attachmentsPaused := false
  creationPaused := false
  leaderboard := 0
  roles := fun r a => ((r == ADMIN_ROLE) || (r == KEEPER_ROLE)) && (a == admin)
  notifs := []

/-- Swap-with-last-and-truncate removal from a dynamic array:
`tail := len - 1; if idx != tail then a[idx] := a[tail]; a.pop()`. -/
def swapRemove {α : Type} (l : List α) (idx : Nat) : List α :=
  match l.getLast? with
  | none => l
  | some b => (l.set idx b).dropLast

/-- Body of the per-deposit loop shared by `attachDeposits`,
`attachDepositsOnBehalf` (lines 243-263 / 289-309) and the tail of
`_attachDepositOnBehalf` (lines 540-558). -/
def attachLoopStep (o : Oracle) (now gVault : Nat) (isQuicksave : Bool)
    (goalId owner : Nat) (s : GMState) (depositId : Nat) : Except Err GMState :=
  let d := o.getUserDeposit gVault owner depositId
  if d.currentValue = 0 then .error .DepositNotFoundOrZero
  else if ¬isQuicksave ∧ d.lockEnd < now then .error .DepositAlreadyUnlocked
  else
    let key := depositKey gVault owner depositId
    if s.depositToGoal key ≠ 0 then .error .DepositAlreadyAttached
    else
      let a : Attachment :=
        { owner := owner, depositId := depositId, attachedAt := now
          pledged := o.isDepositPledged gVault owner depositId }
      .ok { s with
        attachments := upd s.attachments goalId (s.attachments goalId ++ [a])
        depositToGoal := upd s.depositToGoal key goalId
        notifs := if s.leaderboard ≠ 0
          then s.notifs ++ [.recordDeposit owner d.currentValue] else s.notifs }

/-- `attachDeposits(goalId, depositIds)` called by `sender` at time `now`. -/
def attachDeposits (o : Oracle) (now sender goalId : Nat) (depositIds : List Nat)
    (s : GMState) : Except Err GMState :=
  if s.attachmentsPaused then .error .AttachmentsPausedErr
  else
    let g := s.goals goalId
    if ¬(g.id ≠ 0 ∧ g.cancelled = false ∧ g.completed = false) then .error .InvalidGoal
    else if ¬(now ≤ g.targetDate) then .error .GoalWindowPassed
    else if depositIds.length = 0 then .error .NoDeposits
    else
      let arr := s.attachments goalId
      if ¬(arr.length + depositIds.length ≤ s.maxAttachmentsPerGoal) then
        .error .GoalAttachmentCap
      else
        let userCount := arr.countP (fun a => a.owner == sender)
        if ¬(userCount + depositIds.length ≤ s.maxAttachmentsPerUser) then
          .error .PerUserCapForThisGoal
        else
          depositIds.foldlM (attachLoopStep o now g.vault (g.targetAmount = 0) goalId sender) s

/-- `attachDepositsOnBehalf(goalId, owner, depositIds)`, BACKEND_ROLE gated. -/
def attachDepositsOnBehalf (o : Oracle) (now sender goalId owner : Nat)
    (depositIds : List Nat) (s : GMState) : Except Err GMState :=
  if ¬(s.roles BACKEND_ROLE sender = true) then .error .NotAuthorizedRole
  else if s.attachmentsPaused then .error .AttachmentsPausedErr
  else
    let g := s.goals goalId
    if ¬(g.id ≠ 0 ∧ g.cancelled = false ∧ g.completed = false) then .error .InvalidGoal
    else if ¬(now ≤ g.targetDate) then .error .GoalWindowPassed
    else if depositIds.length = 0 then .error .NoDeposits
    else
      let arr := s.attachments goalId
      if ¬(arr.length + depositIds.length ≤ s.maxAttachmentsPerGoal) then
        .error .GoalAttachmentCap
      else
        let userCount := arr.countP (fun a => a.owner == owner)
        if ¬(userCount + depositIds.length ≤ s.maxAttachmentsPerUser) then
          .error .PerUserCapForThisGoal
        else
          depositIds.foldlM (attachLoopStep o now g.vault (g.targetAmount = 0) goalId owner) s

/-- `_attachDepositOnBehalf(goalId, owner, depositId)` (internal). -/
def attachDepositOnBehalfSingle (o : Oracle) (now goalId owner depositId : Nat)
    (s : GMState) : Except Err GMState :=
  let g := s.goals goalId
  if ¬(g.id ≠ 0 ∧ g.cancelled = false ∧ g.completed = false) then .error .InvalidGoal
  else if ¬((s.attachments goalId).length + 1 ≤ s.maxAttachmentsPerGoal) then
    .error .GoalAttachmentCap
  else if ¬((s.attachments goalId).countP (fun a => a.owner == owner) + 1
      ≤ s.maxAttachmentsPerUser) then .error .PerUserCapForThisGoal
  else
    attachLoopStep o now g.vault (g.targetAmount = 0) goalId owner s depositId

/-- `_createGoal(creator, vault, targetAmount, targetDate, uri)` (internal). -/
def createGoalInternal (now creator vault targetAmount targetDate : Nat)
    (uri : String) (s : GMState) : Except Err (Nat × GMState) :=
  if s.creationPaused then .error .CreationPausedErr
  else if vault = 0 then .error .InvalidVault
  else if ¬(targetDate = 0 ∨ now + MIN_LOCK_PERIOD ≤ targetDate) then
    .error .TargetTooSoon
  else
    let goalId := s.goalCounter
    let g : Goal :=
      { id := goalId, creator := creator, vault := vault
        targetAmount := targetAmount
        targetDate := if targetDate = 0 then now + MIN_LOCK_PERIOD else targetDate
        metadataURI := uri, createdAt := now, cancelled := false, completed := false }
    .ok (goalId, { s with goalCounter := s.goalCounter + 1, goals := upd s.goals goalId g })

/-- `createGoal(vault, targetAmount, targetDate, uri)`. -/
def createGoal (now sender vault targetAmount targetDate : Nat) (uri : String)
    (s : GMState) : Except Err (Nat × GMState) :=
  createGoalInternal now sender vault targetAmount targetDate uri s

/-- `createGoalFor(creator, vault, targetAmount, targetDate, uri)`. -/
def createGoalFor (now sender creator vault targetAmount targetDate : Nat)
    (uri : String) (s : GMState) : Except Err (Nat × GMState) :=
  if ¬(s.roles BACKEND_ROLE sender = true) then .error .NotAuthorizedRole
  else if creator = 0 then .error .InvalidCreator
  else createGoalInternal now creator vault targetAmount targetDate uri s

/-- `_createQuicksaveFor(user, vault)` (internal, cannot revert). -/
def createQuicksaveInternal (now user vault : Nat) (s : GMState) : Nat × GMState :=
  let goalId := s.goalCounter
  let g : Goal :=
    { id := goalId, creator := user, vault := vault, targetAmount := 0
      targetDate := now + MIN_LOCK_PERIOD, metadataURI := "quicksave"
      createdAt := now, cancelled := false, completed := false }
  (goalId, { s with
    goalCounter := s.goalCounter + 1
    goals := upd s.goals goalId g
    quicksaveGoalOf := upd s.quicksaveGoalOf vault (upd (s.quicksaveGoalOf vault) user goalId) })

/-- `createQuicksaveGoalFor(user, vault)`, BACKEND_ROLE gated. -/
def createQuicksaveGoalFor (now sender user vault : Nat) (s : GMState) :
    Except Err (Nat × GMState) :=
  if ¬(s.roles BACKEND_ROLE sender = true) then .error .NotAuthorizedRole
  else if s.creationPaused then .error .CreationPausedErr
  else if user = 0 then .error .InvalidUser
  else if vault = 0 then .error .InvalidVault
  else if ¬(s.quicksaveGoalOf vault user = 0) then .error .QuicksaveExists
  else .ok (createQuicksaveInternal now user vault s)

/-- `autoAttachToQuicksave(user, vault, depositId)` called by a notifier. -/
def autoAttachToQuicksave (o : Oracle) (now sender user vault depositId : Nat)
    (s : GMState) : Except Err GMState :=
  if ¬(s.notifiers sender = true) then .error .NotAuthorizedNotifier
  else if user = 0 then .error .InvalidUser
  else if vault = 0 then .error .InvalidVault
  else
    let p := if s.quicksaveGoalOf vault user = 0
      then createQuicksaveInternal now user vault s
      else (s.quicksaveGoalOf vault user, s)
    attachDepositOnBehalfSingle o now p.1 user depositId p.2

/-- `transferDeposit(fromGoalId, toGoalId, depositId)`. -/
def transferDeposit (o : Oracle) (now sender fromGoalId toGoalId depositId : Nat)
    (s : GMState) : Except Err GMState :=
  if fromGoalId = toGoalId then .error .SameGoal
  else
    let fromG := s.goals fromGoalId
    let toG := s.goals toGoalId
    if ¬(fromG.id ≠ 0 ∧ toG.id ≠ 0) then .error .InvalidGoal
    else if ¬(fromG.vault = toG.vault) then .error .DifferentVaults
    else if ¬(toG.cancelled = false ∧ toG.completed = false
        ∧ fromG.cancelled = false ∧ fromG.completed = false) then .error .InvalidGoalState
    else
      let fromArr := s.attachments fromGoalId
      match findFirstIdx (fun a => a.owner == sender && a.depositId == depositId) fromArr with
      | none => .error .NotAttachedToFromGoal
      | some idx =>
        let a := fromArr.getD idx dfltAttachment
        if a.pledged then .error .AttachmentPledged
        else if ¬((s.attachments toGoalId).length + 1 ≤ s.maxAttachmentsPerGoal) then
          .error .TargetGoalCap
        else
          let d := o.getUserDeposit fromG.vault sender depositId
          if d.currentValue = 0 then .error .DepositNotFound
          else if d.lockEnd < now then .error .DepositLocked
          else
            let fromKey := depositKey fromG.vault sender depositId
            let att1 := upd s.attachments fromGoalId (swapRemove fromArr idx)
            let newA : Attachment :=
              { owner := sender, depositId := depositId, attachedAt := now
                pledged := o.isDepositPledged fromG.vault sender depositId }
            let toKey := depositKey toG.vault sender depositId
            .ok { s with
              attachments := upd att1 toGoalId (att1 toGoalId ++ [newA])
              depositToGoal := upd (upd s.depositToGoal fromKey 0) toKey toGoalId }

/-- First loop of `detachAttachments`: bounds then strict-descending check. -/
def checkIndices (len : Nat) (prev : Option Nat) : List Nat → Except Err Unit
  | [] => .ok ()
  | i :: rest =>
    if len ≤ i then .error .IndexOOB
    else match prev with
      | none => checkIndices len (some i) rest
      | some p => if i < p then checkIndices len (some i) rest
                  else .error .IndicesNotDescending

/-- Body of the removal loop of `detachAttachments` (lines 380-396). -/
def detachLoopStep (o : Oracle) (now sender goalId gVault : Nat) (gCancelled : Bool)
    (s : GMState) (idx : Nat) : Except Err GMState :=
  let arr := s.attachments goalId
  match arr[idx]? with
  | none => .error .IndexOOB
  | some a =>
    if ¬(a.owner = sender) then .error .NotOwner
    else if a.pledged then .error .AttachmentPledged
    else
      let d := o.getUserDeposit gVault a.owner a.depositId
      if ¬(gCancelled = true ∨ d.lockEnd ≤ now) then .error .DepositLocked
      else
        let key := depositKey gVault a.owner a.depositId
        .ok { s with
          depositToGoal := upd s.depositToGoal key 0
          attachments := upd s.attachments goalId (swapRemove arr idx) }

/-- `detachAttachments(goalId, indices)`. -/
def detachAttachments (o : Oracle) (now sender goalId : Nat) (indices : List Nat)
    (s : GMState) : Except Err GMState :=
  let g := s.goals goalId
  if g.id = 0 then .error .InvalidGoal
  else if indices.length = 0 then .error .NoIndices
  else
    match checkIndices (s.attachments goalId).length none indices with
    | .error e => .error e
    | .ok _ => indices.foldlM (detachLoopStep o now sender goalId g.vault g.cancelled) s

/-- `reportPledgedAttachment(goalId, depositId)`. -/
def reportPledgedAttachment (o : Oracle) (sender goalId depositId : Nat)
    (s : GMState) : Except Err GMState :=
  let g := s.goals goalId
  if g.id = 0 then .error .InvalidGoal
  else
    let arr := s.attachments goalId
    match findFirstIdx (fun a => a.owner == sender && a.depositId == depositId) arr with
    | none => .error .AttachmentNotFound
    | some i =>
      if ¬(o.isDepositPledged g.vault sender depositId = true) then
        .error .NotPledgedInVault
      else
        let a := arr.getD i dfltAttachment
        .ok { s with attachments := upd s.attachments goalId (arr.set i { a with pledged := true }) }

/-- `cancelGoal(goalId)`. -/
def cancelGoal (o : Oracle) (sender goalId : Nat) (s : GMState) : Except Err GMState :=
  let g := s.goals goalId
  if g.id = 0 then .error .InvalidGoal
  else if g.cancelled then .error .AlreadyCancelled
  else if ¬(sender = g.creator ∨ s.roles ADMIN_ROLE sender = true
      ∨ s.roles BACKEND_ROLE sender = true) then .error .NotPermitted
  else if (s.attachments goalId).any
      (fun a => a.pledged || o.isDepositPledged g.vault a.owner a.depositId) then
    .error .HasPledgedAttachments
  else .ok { s with goals := upd s.goals goalId { g with cancelled := true } }

/-- `_computeGoalValuePaged(g, start, end)` (internal view). -/
def computeGoalValuePaged (o : Oracle) (s : GMState) (g : Goal) (start e : Nat) :
    Nat × Nat :=
  let arr := s.attachments g.id
  let len := arr.length
  if len ≤ start then (0, 0)
  else
    let e2 := min e len
    ((arr.drop start).take (e2 - start)).foldl
      (fun acc a => (acc.1 + (o.getUserDeposit g.vault a.owner a.depositId).currentValue,
                     acc.2 + 1)) (0, 0)

/-- `finalizeGoalIfCompleted(goalId)`, KEEPER/ADMIN gated. -/
def finalizeGoalIfCompleted (o : Oracle) (sender goalId : Nat) (s : GMState) :
    Except Err GMState :=
  if ¬(s.roles KEEPER_ROLE sender = true ∨ s.roles ADMIN_ROLE sender = true) then
    .error .NotAllowed
  else
    let g := s.goals goalId
    if ¬(g.id ≠ 0 ∧ g.completed = false ∧ g.cancelled = false) then .error .InvalidGoal
    else
      let totalValue := (computeGoalValuePaged o s g 0 (s.attachments goalId).length).1
      if 0 < g.targetAmount ∧ g.targetAmount ≤ totalValue then
        .ok { s with
          goals := upd s.goals goalId { g with completed := true }
          notifs := if s.leaderboard ≠ 0
            then s.notifs ++ [.recordGoalCompletion g.creator goalId totalValue]
            else s.notifs }
      else .error .NotCompletedOrNoTarget

/-- `attachmentCount(goalId)` (view). -/
def attachmentCount (goalId : Nat) (s : GMState) : Nat :=
  (s.attachments goalId).length

/-- `getGoalProgressPaged(goalId, start, end)` (view). -/
def getGoalProgressPaged (o : Oracle) (goalId start e : Nat) (s : GMState) :
    Except Err (Nat × Nat) :=
  let g := s.goals goalId
  if g.id = 0 then .error .InvalidGoal
  else if ¬(start ≤ e) then .error .InvalidRange
  else
    let sum := (computeGoalValuePaged o s g start e).1
    .ok (sum, if g.targetAmount = 0 then 0 else sum * 10000 / g.targetAmount)

/-- `getGoalProgressFull(goalId)` (view). -/
def getGoalProgressFull (o : Oracle) (goalId : Nat) (s : GMState) :
    Except Err (Nat × Nat) :=
  let g := s.goals goalId
  if g.id = 0 then .error .InvalidGoal
  else
    let sum := (computeGoalValuePaged o s g 0 (s.attachments goalId).length).1
    .ok (sum, if g.targetAmount = 0 then 0 else sum * 10000 / g.targetAmount)

/-- `setCreationPaused(paused)`, ADMIN gated. -/
def setCreationPaused (sender : Nat) (b : Bool) (s : GMState) : Except Err GMState :=
  if ¬(s.roles ADMIN_ROLE sender = true) then .error .NotAuthorizedRole
  else .ok { s with creationPaused := b }

/-- `setAttachmentsPaused(paused)`, ADMIN gated. -/
def setAttachmentsPaused (sender : Nat) (b : Bool) (s : GMState) : Except Err GMState :=
  if ¬(s.roles ADMIN_ROLE sender = true) then .error .NotAuthorizedRole
  else .ok { s with attachmentsPaused := b }

/-- `updateAttachmentLimits(perGoal, perUser)`, ADMIN gated. -/
def updateAttachmentLimits (sender perGoal perUser : Nat) (s : GMState) :
    Except Err GMState :=
  if ¬(s.roles ADMIN_ROLE sender = true) then .error .NotAuthorizedRole
  else if ¬(0 < perGoal ∧ 0 < perUser) then .error .InvalidLimits
  else .ok { s with maxAttachmentsPerGoal := perGoal, maxAttachmentsPerUser := perUser }

/-- `setNotifier(addr, allowed)`, ADMIN gated. -/
def setNotifier (sender addr : Nat) (allowed : Bool) (s : GMState) :
    Except Err GMState :=
  if ¬(s.roles ADMIN_ROLE sender = true) then .error .NotAuthorizedRole
  else if addr = 0 then .error .InvalidNotifier
  else .ok { s with notifiers := upd s.notifiers addr allowed }

/-- `setLeaderboard(addr)`, ADMIN gated. -/
def setLeaderboard (sender addr : Nat) (s : GMState) : Except Err GMState :=
  if ¬(s.roles ADMIN_ROLE sender = true) then .error .NotAuthorizedRole
  else .ok { s with leaderboard := addr }

/-- `grantRole`/`revokeRole` from AccessControl, admin gated. -/
def setRoleMembership (sender role account : Nat) (val : Bool) (s : GMState) :
    Except Err GMState :=
  if ¬(s.roles ADMIN_ROLE sender = true) then .error .NotAuthorizedRole
  else .ok { s with roles := upd s.roles role (upd (s.roles role) account val) }

/-- The revert reason of a failed call, `none` on success. -/
def errOf {α : Type} (x : Except Err α) : Option Err :=
  match x with
  | .error e => some e
  | .ok _ => none

/-- EVM transaction boundary: a revert rolls the storage back. -/
def runTx (f : GMState → Except Err GMState) (s : GMState) : GMState :=
  match f s with
  | .ok s' => s'
  | .error _ => s

/-- Transaction boundary for the entry points that also return a value. -/
def runTx2 (r : Except Err (Nat × GMState)) (s : GMState) : GMState :=
  match r with
  | .ok p => p.2
  | .error _ => s

/-! ### Basic facts about `Except`, `findFirstIdx`, `swapRemove`, `checkIndices` -/

@[simp] theorem except_bind_ok {α β : Type} (a : α) (f : α → Except Err β) :
    (Except.ok a >>= f) = f a := rfl

@[simp] theorem except_bind_error {α β : Type} (e : Err) (f : α → Except Err β) :
    ((Except.error e : Except Err α) >>= f) = .error e := rfl

@[simp] theorem except_isOk_ok {ε α : Type} (a : α) :
    (Except.ok a : Except ε α).isOk = true := rfl

@[simp] theorem except_isOk_error {ε α : Type} (e : ε) :
    (Except.error e : Except ε α).isOk = false := rfl

theorem except_isOk_iff {ε α : Type} (x : Except ε α) :
    x.isOk = true ↔ ∃ a, x = .ok a := by
  cases x <;> simp

instance {ε α : Type} [DecidableEq ε] [DecidableEq α] : DecidableEq (Except ε α) :=
  fun x y =>
    match x, y with
    | .ok a, .ok b =>
      if h : a = b then .isTrue (congrArg Except.ok h)
      else .isFalse (fun hc => h (Except.ok.inj hc))
    | .ok _, .error _ => .isFalse (fun hc => Except.noConfusion hc)
    | .error _, .ok _ => .isFalse (fun hc => Except.noConfusion hc)
    | .error e, .error f =>
      if h : e = f then .isTrue (congrArg Except.error h)
      else .isFalse (fun hc => h (Except.error.inj hc))

theorem findFirstIdx_some {α : Type} {p : α → Bool} :
    ∀ {l : List α} {i : Nat}, findFirstIdx p l = some i →
      ∃ h : i < l.length, p (l.get ⟨i, h⟩) = true := by
  intro l
  induction l with
  | nil => intro i h; simp [findFirstIdx] at h
  | cons a t ih =>
    intro i h
    by_cases hp : p a
    · simp [findFirstIdx, hp] at h
      subst h
      exact ⟨by simp, by simpa using hp⟩
    · simp [findFirstIdx, hp] at h
      obtain ⟨j, hj, rfl⟩ := h
      obtain ⟨hlt, hpj⟩ := ih hj
      exact ⟨by simpa using Nat.succ_lt_succ hlt, by simpa using hpj⟩

theorem length_swapRemove {α : Type} (l : List α) (idx : Nat) (h : idx < l.length) :
    (swapRemove l idx).length = l.length - 1 := by
  have hne : l ≠ [] := by
    intro e; subst e; simp at h
  unfold swapRemove
  rw [List.getLast?_eq_getLast l hne]
  simp

theorem getElem?_swapRemove_lt {α : Type} {l : List α} {idx j : Nat}
    (hj : j < idx) (h : idx < l.length) : (swapRemove l idx)[j]? = l[j]? := by
  have hne : l ≠ [] := by
    intro e; subst e; simp at h
  have h1 : j < l.length - 1 := lt_of_lt_of_le hj (Nat.le_sub_one_of_lt h)
  unfold swapRemove
  rw [List.getLast?_eq_getLast l hne]
  rw [List.getElem?_dropLast, List.length_set, if_pos h1, List.getElem?_set,
    if_neg (Nat.ne_of_gt hj)]

theorem cons_set_perm {α : Type} :
    ∀ (l : List α) (i : Nat) (y : α) (h : i < l.length),
      (l[i] :: l.set i y).Perm (y :: l) := by
  intro l
  induction l with
  | nil => intro i y h; simp at h
  | cons a t ih =>
    intro i y h
    cases i with
    | zero =>
      simpa using List.Perm.swap y a t
    | succ n =>
      have hn : n < t.length := by simpa using h
      simp only [List.getElem_cons_succ, List.set_cons_succ]
      exact (List.Perm.swap a (t[n]) (t.set n y)).trans
        (((ih n y hn).cons a).trans (List.Perm.swap y a t))

theorem swapRemove_perm {α : Type} (l : List α) (idx : Nat) (h : idx < l.length) :
    (l[idx] :: swapRemove l idx).Perm l := by
  rcases l.eq_nil_or_concat with rfl | ⟨m, b, rfl⟩
  · simp at h
  · simp only [List.concat_eq_append] at h ⊢
    unfold swapRemove
    rw [List.getLast?_concat]
    show ((m ++ [b])[idx] :: ((m ++ [b]).set idx b).dropLast).Perm (m ++ [b])
    by_cases hidx : idx < m.length
    · have hset : (m ++ [b]).set idx b = (m.set idx b) ++ [b] := by
        rw [List.set_append, if_pos hidx]
      have hgl : (m ++ [b])[idx] = m[idx] := List.getElem_append_left hidx
      rw [hset, List.dropLast_concat, hgl]
      exact (cons_set_perm m idx b hidx).trans (List.perm_append_singleton b m).symm
    · have hidx2 : idx = m.length := by
        simp at h; omega
      subst hidx2
      have hset : (m ++ [b]).set m.length b = m ++ [b] := by
        rw [List.set_append, if_neg (lt_irrefl _), Nat.sub_self]
        simp
      have hgl : (m ++ [b])[m.length] = b := by simp
      rw [hset, List.dropLast_concat, hgl]
      exact (List.perm_append_singleton b m).symm

theorem countP_swapRemove {α : Type} (p : α → Bool) (l : List α) (idx : Nat)
    (h : idx < l.length) :
    List.countP p l
      = (if p (l[idx]) then 1 else 0) + List.countP p (swapRemove l idx) := by
  have hperm := (swapRemove_perm l idx h).countP_eq p
  rw [← hperm, List.countP_cons]
  by_cases hp : p (l[idx]) <;> simp [hp] <;> omega

/-- `prev`-aware list view used to state facts about `checkIndices`. -/
def prevCons (prev : Option Nat) (l : List Nat) : List Nat :=
  match prev with
  | none => l
  | some p => p :: l

theorem checkIndices_ok_iff {len : Nat} :
    ∀ (l : List Nat) (prev : Option Nat),
      checkIndices len prev l = .ok ()
        ↔ ((∀ i ∈ l, i < len) ∧ List.Chain' (· > ·) (prevCons prev l)) := by
  intro l
  induction l with
  | nil =>
    intro prev
    cases prev <;> simp [checkIndices, prevCons]
  | cons i rest ih =>
    intro prev
    have hi : i < len ∨ ¬ i < len := by omega
    cases prev with
    | none =>
      simp only [checkIndices, prevCons]
      by_cases hb : len ≤ i
      · rw [if_pos hb]
        simp only [List.forall_mem_cons]
        constructor
        · intro hcontra; cases hcontra
        · rintro ⟨⟨h1, _⟩, _⟩; omega
      · rw [if_neg hb, ih (some i)]
        simp only [prevCons, List.forall_mem_cons]
        have hil : i < len := by omega
        tauto
    | some p =>
      simp only [checkIndices, prevCons]
      by_cases hb : len ≤ i
      · rw [if_pos hb]
        simp only [List.forall_mem_cons]
        constructor
        · intro hcontra; cases hcontra
        · rintro ⟨⟨h1, _⟩, _⟩; omega
      · rw [if_neg hb]
        by_cases hip : i < p
        · rw [if_pos hip, ih (some i)]
          simp only [prevCons, List.forall_mem_cons, List.chain'_cons, gt_iff_lt]
          have hil : i < len := by omega
          tauto
        · rw [if_neg hip]
          simp only [List.forall_mem_cons, List.chain'_cons, gt_iff_lt]
          constructor
          · intro hcontra; cases hcontra
          · rintro ⟨_, h2, _⟩; exact absurd h2 hip

theorem checkIndices_err_notdesc {len : Nat} :
    ∀ (l : List Nat) (prev : Option Nat),
      (∀ i ∈ l, i < len) → ¬ List.Chain' (· > ·) (prevCons prev l) →
      checkIndices len prev l = .error .IndicesNotDescending := by
  intro l
  induction l with
  | nil =>
    intro prev hb hc
    exfalso
    cases prev <;> simp [prevCons] at hc
  | cons i rest ih =>
    intro prev hb hc
    have hbi : ¬ len ≤ i := by
      have := hb i (by simp)
      omega
    cases prev with
    | none =>
      simp only [checkIndices]
      rw [if_neg hbi]
      exact ih (some i) (fun j hj => hb j (by simp [hj])) hc
    | some p =>
      simp only [checkIndices]
      rw [if_neg hbi]
      by_cases hip : i < p
      · rw [if_pos hip]
        apply ih (some i) (fun j hj => hb j (by simp [hj]))
        intro hc2
        apply hc
        simpa [prevCons, List.chain'_cons] using And.intro hip (by simpa [prevCons] using hc2)
      · rw [if_neg hip]

/-! ### Concrete scenario states used by counterexamples and witnesses -/

/-- Oracle for the scenarios: every deposit has value 10, lock expiry 100,
and is not pledged anywhere. -/
def demoOracle : Oracle where
  getUserDeposit := fun _ _ _ => ⟨0, 10, 0, 100, false⟩
  isDepositPledged := fun _ _ _ => false

/-- Oracle whose deposits are already unlocked: value `depositId + 1`,
lock expiry 0, never pledged. -/
def unlockedOracle : Oracle where
  getUserDeposit := fun _ _ d => ⟨0, d + 1, 0, 0, false⟩
  isDepositPledged := fun _ _ _ => false

/-- Fresh contract: admin 7, default caps (200 per goal, 500 per user). -/
def sA0 : GMState := initialState 7 0 0

/-- After user 5 creates goal 1 on vault 1 with target 10. -/
def sA1 : GMState := runTx2 (createGoal 0 5 1 10 2592000 "" sA0) sA0

/-- After user 5 attaches deposit 1 (value 10) to goal 1. -/
def sA2 : GMState := runTx (attachDeposits demoOracle 0 5 1 [1]) sA1

/-- After admin 7 finalizes goal 1 (value 10 meets target 10). -/
def sA3 : GMState := runTx (finalizeGoalIfCompleted demoOracle 7 1) sA2

/-- After creator 5 cancels the already-completed goal 1. -/
def sA4 : GMState := runTx (cancelGoal demoOracle 5 1) sA3

/-! ### C8: paged progress -/

/-- Progress as §4.3 of the spec words it: the total is the sum of the
oracle values of the attachments whose index lies in `[start, min(end, len))`,
and the percent is `floor(total * 10000 / targetAmount)` for a targeted goal
and `0` for an open-ended one. -/
def progressSpec (o : Oracle) (s : GMState) (goalId start e : Nat) : Nat × Nat :=
  let arr := s.attachments goalId
  let total := (((arr.drop start).take (min e arr.length - start)).map
    (fun a => (o.getUserDeposit (s.goals goalId).vault a.owner a.depositId).currentValue)).sum
  (total, if (s.goals goalId).targetAmount = 0 then 0
          else total * 10000 / (s.goals goalId).targetAmount)

theorem foldl_sum_pair {α : Type} (f : α → Nat) :
    ∀ (l : List α) (acc : Nat × Nat),
      l.foldl (fun acc a => (acc.1 + f a, acc.2 + 1)) acc
        = (acc.1 + (l.map f).sum, acc.2 + l.length) := by
  intro l
  induction l with
  | nil => intro acc; simp
  | cons a t ih =>
    intro acc
    rw [List.foldl_cons, ih]
    apply Prod.ext <;> simp <;> omega

theorem computeGoalValuePaged_fst (o : Oracle) (s : GMState) (g : Goal)
    (start e : Nat) :
    (computeGoalValuePaged o s g start e).1
      = ((((s.attachments g.id).drop start).take (min e (s.attachments g.id).length - start)).map
          (fun a => (o.getUserDeposit g.vault a.owner a.depositId).currentValue)).sum := by
  unfold computeGoalValuePaged
  by_cases hs : (s.attachments g.id).length ≤ start
  · rw [if_pos hs]
    have hdrop : (s.attachments g.id).drop start = [] := by
      rw [List.drop_eq_nil_iff]
      omega
    simp [hdrop]
  · rw [if_neg hs]
    rw [foldl_sum_pair]
    simp

/-- Claim C8 counterexample: on an existing (empty) goal, a paged progress
query with `start > end` reverts with a range error instead of returning
`(0, 0)` as the claim's universal quantification over `start, end` demands. -/
theorem progress_rejects_unordered_range :
    (sA1.goals 1).id = 1
    ∧ getGoalProgressPaged demoOracle 1 1 0 sA1 = .error .InvalidRange := by
  constructor <;> decide

/-- Claim C8 (amended): for every existing goal and all `start <= end`, paged
progress returns the sum of oracle values over attachments with index in
`[start, min(end, len))` (and `(0, 0)` whenever `start >= len`), with
`percentBps = floor(total * 10000 / targetAmount)` for targeted goals and `0`
for open-ended ones, and full progress equals `progress(goalId, 0, len)`;
a call with `start > end` reverts with a range error. -/
theorem progress_paged_spec (o : Oracle) (gid start e : Nat) (s : GMState)
    (hid : (s.goals gid).id = gid) (hgz : gid ≠ 0) (hse : start ≤ e) :
    getGoalProgressPaged o gid start e s = .ok (progressSpec o s gid start e)
    ∧ ((s.attachments gid).length ≤ start →
        getGoalProgressPaged o gid start e s = .ok (0, 0))
    ∧ getGoalProgressFull o gid s
        = getGoalProgressPaged o gid 0 (s.attachments gid).length s
    ∧ (∀ start2 e2, e2 < start2 →
        getGoalProgressPaged o gid start2 e2 s = .error .InvalidRange) := by
  have hid0 : ¬((s.goals gid).id = 0) := by rw [hid]; exact hgz
  have hfst := computeGoalValuePaged_fst o s (s.goals gid)
  refine ⟨?_, ?_, ?_, ?_⟩
  · simp only [getGoalProgressPaged, progressSpec]
    rw [if_neg hid0, if_neg (not_not_intro hse), hfst, hid]
  · intro hlen
    simp only [getGoalProgressPaged]
    rw [if_neg hid0, if_neg (not_not_intro hse), hfst, hid]
    have hdrop : (s.attachments gid).drop start = [] := by
      rw [List.drop_eq_nil_iff]
      omega
    simp [hdrop]
  · simp only [getGoalProgressPaged, getGoalProgressFull]
    rw [if_neg hid0, if_neg hid0, if_neg (not_not_intro (Nat.zero_le _))]
  · intro start2 e2 hlt
    simp only [getGoalProgressPaged]
    rw [if_neg hid0, if_pos (by omega)]

/-- Witness for C8: paged progress of goal 1 in `sA2` over `[0, 5)` is the
spec value, concretely `(10, 10000)`. -/
theorem progress_paged_spec_witness :
    getGoalProgressPaged demoOracle 1 0 5 sA2 = .ok (progressSpec demoOracle sA2 1 0 5)
    ∧ getGoalProgressPaged demoOracle 1 0 5 sA2 = .ok (10, 10000) := by
  refine ⟨(progress_paged_spec demoOracle 1 0 5 sA2 (by decide) (by decide) (by decide)).1, ?_⟩
  decide

/-! ### C5: finalization -/

/-- Claim C5: on a non-terminal goal, finalize succeeds iff the caller holds
the keeper or admin role, `targetAmount > 0` and the full-range total meets
the target; on success it marks the goal completed and (with a leaderboard
configured) appends exactly one completion notification while touching no
attachment or uniqueness-index state; an authorized call whose value
condition fails (or whose target is 0) reverts with the not-completed error
and leaves the state unchanged. -/
theorem finalize_spec (o : Oracle) (sender gid total pct : Nat) (s : GMState)
    (hid : (s.goals gid).id ≠ 0) (hnc : (s.goals gid).cancelled = false)
    (hncomp : (s.goals gid).completed = false)
    (hfull : getGoalProgressFull o gid s = .ok (total, pct)) :
    ((finalizeGoalIfCompleted o sender gid s).isOk = true ↔
      ((s.roles KEEPER_ROLE sender = true ∨ s.roles ADMIN_ROLE sender = true)
        ∧ 0 < (s.goals gid).targetAmount ∧ (s.goals gid).targetAmount ≤ total))
    ∧ (∀ s', finalizeGoalIfCompleted o sender gid s = .ok s' →
        (s'.goals gid).completed = true ∧ (s'.goals gid).cancelled = false
        ∧ s'.attachments = s.attachments ∧ s'.depositToGoal = s.depositToGoal
        ∧ s'.quicksaveGoalOf = s.quicksaveGoalOf
        ∧ (s.leaderboard ≠ 0 →
            s'.notifs = s.notifs
              ++ [Notif.recordGoalCompletion (s.goals gid).creator gid total])
        ∧ (s.leaderboard = 0 → s'.notifs = s.notifs))
    ∧ ((s.roles KEEPER_ROLE sender = true ∨ s.roles ADMIN_ROLE sender = true) →
        ¬(0 < (s.goals gid).targetAmount ∧ (s.goals gid).targetAmount ≤ total) →
        finalizeGoalIfCompleted o sender gid s = .error .NotCompletedOrNoTarget
          ∧ runTx (finalizeGoalIfCompleted o sender gid) s = s) := by
  have hid0 : ¬((s.goals gid).id = 0) := hid
  have htot : (computeGoalValuePaged o s (s.goals gid) 0 (s.attachments gid).length).1
      = total := by
    simp only [getGoalProgressFull] at hfull
    rw [if_neg hid0] at hfull
    exact (Prod.mk.inj (Except.ok.inj hfull)).1
  have hvalid : (s.goals gid).id ≠ 0 ∧ (s.goals gid).completed = false
      ∧ (s.goals gid).cancelled = false := ⟨hid, hncomp, hnc⟩
  have heq : finalizeGoalIfCompleted o sender gid s
      = if (s.roles KEEPER_ROLE sender = true ∨ s.roles ADMIN_ROLE sender = true) then
          (if 0 < (s.goals gid).targetAmount ∧ (s.goals gid).targetAmount ≤ total then
            .ok { s with
              goals := upd s.goals gid { s.goals gid with completed := true }
              notifs := if s.leaderboard ≠ 0
                then s.notifs ++ [Notif.recordGoalCompletion (s.goals gid).creator gid total]
                else s.notifs }
          else .error .NotCompletedOrNoTarget)
        else .error .NotAllowed := by
    simp only [finalizeGoalIfCompleted]
    by_cases hrole : (s.roles KEEPER_ROLE sender = true ∨ s.roles ADMIN_ROLE sender = true)
    · rw [if_neg (not_not_intro hrole), if_pos hrole, if_neg (not_not_intro hvalid), htot]
    · rw [if_pos hrole, if_neg hrole]
  refine ⟨?_, ?_, ?_⟩
  · rw [heq]
    by_cases hrole : (s.roles KEEPER_ROLE sender = true ∨ s.roles ADMIN_ROLE sender = true)
    · rw [if_pos hrole]
      by_cases hcond : (0 < (s.goals gid).targetAmount ∧ (s.goals gid).targetAmount ≤ total)
      · rw [if_pos hcond]
        simp [hrole, hcond]
      · rw [if_neg hcond]
        simp [hcond]
    · rw [if_neg hrole]
      simp [hrole]
  · intro s' hs'
    rw [heq] at hs'
    by_cases hrole : (s.roles KEEPER_ROLE sender = true ∨ s.roles ADMIN_ROLE sender = true)
    · rw [if_pos hrole] at hs'
      by_cases hcond : (0 < (s.goals gid).targetAmount ∧ (s.goals gid).targetAmount ≤ total)
      · rw [if_pos hcond] at hs'
        obtain rfl : _ = s' := Except.ok.inj hs'
        refine ⟨by simp, by simp [hnc], rfl, rfl, rfl, ?_, ?_⟩
        · intro hlb; simp [hlb]
        · intro hlb; simp [hlb]
      · rw [if_neg hcond] at hs'
        exact absurd hs' (by simp)
    · rw [if_neg hrole] at hs'
      exact absurd hs' (by simp)
  · intro hrole hcond
    have herr : finalizeGoalIfCompleted o sender gid s = .error .NotCompletedOrNoTarget := by
      rw [heq, if_pos hrole, if_neg hcond]
    refine ⟨herr, ?_⟩
    unfold runTx
    rw [herr]

/-! ### C2: terminal lifecycle flags -/

/-- Claim C2 (amended): once a goal is cancelled, every subsequent attach,
transfer, finalize and cancel against it fails; once it is completed, every
subsequent attach, transfer and finalize against it fails (so cancel followed
by finalize always fails the second call) — but `cancelGoal` does not check
the completed flag, so finalize followed by cancel can succeed and a goal can
reach `cancelled = true` together with `completed = true`. -/
theorem terminal_flags_block (o : Oracle) (now sender owner user vault fromG toG did gid : Nat)
    (ids : List Nat) (s : GMState) (hgz : gid ≠ 0)
    (hc : (s.goals gid).cancelled = true ∨ (s.goals gid).completed = true) :
    (attachDeposits o now sender gid ids s).isOk = false
    ∧ (attachDepositsOnBehalf o now sender gid owner ids s).isOk = false
    ∧ (s.quicksaveGoalOf vault user = gid →
        (autoAttachToQuicksave o now sender user vault did s).isOk = false)
    ∧ (fromG = gid ∨ toG = gid →
        (transferDeposit o now sender fromG toG did s).isOk = false)
    ∧ (finalizeGoalIfCompleted o sender gid s).isOk = false
    ∧ ((s.goals gid).cancelled = true → (cancelGoal o sender gid s).isOk = false) := by
  refine ⟨?_, ?_, ?_, ?_, ?_, ?_⟩
  · simp only [attachDeposits]
    split
    · simp
    · split
      · simp
      · rename_i h2
        obtain ⟨_, h3, h4⟩ := not_not.mp h2
        rcases hc with hc | hc
        · rw [hc] at h3; cases h3
        · rw [hc] at h4; cases h4
  · simp only [attachDepositsOnBehalf]
    split
    · simp
    · split
      · simp
      · split
        · simp
        · rename_i h2
          obtain ⟨_, h3, h4⟩ := not_not.mp h2
          rcases hc with hc | hc
          · rw [hc] at h3; cases h3
          · rw [hc] at h4; cases h4
  · intro hq
    simp only [autoAttachToQuicksave]
    split
    · simp
    · split
      · simp
      · split
        · simp
        · rw [hq, if_neg hgz]
          simp only [attachDepositOnBehalfSingle]
          split
          · simp
          · rename_i h2
            obtain ⟨_, h3, h4⟩ := not_not.mp h2
            rcases hc with hc | hc
            · rw [hc] at h3; cases h3
            · rw [hc] at h4; cases h4
  · intro hft
    simp only [transferDeposit]
    split
    · simp
    · split
      · simp
      · split
        · simp
        · split
          · simp
          · rename_i h2
            obtain ⟨hto1, hto2, hfrom1, hfrom2⟩ := not_not.mp h2
            rcases hft with rfl | rfl
            · rcases hc with hc | hc
              · rw [hc] at hfrom1; cases hfrom1
              · rw [hc] at hfrom2; cases hfrom2
            · rcases hc with hc | hc
              · rw [hc] at hto1; cases hto1
              · rw [hc] at hto2; cases hto2
  · simp only [finalizeGoalIfCompleted]
    split
    · simp
    · split
      · simp
      · rename_i h2
        obtain ⟨_, h3, h4⟩ := not_not.mp h2
        rcases hc with hc | hc
        · rw [hc] at h4; cases h4
        · rw [hc] at h3; cases h3
  · intro hcan
    simp only [cancelGoal]
    split
    · simp
    · simp [hcan]

/-- Claim C2 counterexample: from a fresh contract, create goal 1 (target
10), attach a deposit worth 10, finalize it (completed := true), then the
creator cancels the completed goal and the cancel SUCCEEDS, leaving the goal
with `cancelled = true` and `completed = true` — the claim says the second
terminal call must fail and both flags can never hold. -/
theorem finalize_then_cancel_both_flags :
    (createGoal 0 5 1 10 2592000 "" sA0).isOk = true
    ∧ (attachDeposits demoOracle 0 5 1 [1] sA1).isOk = true
    ∧ (finalizeGoalIfCompleted demoOracle 7 1 sA2).isOk = true
    ∧ (cancelGoal demoOracle 5 1 sA3).isOk = true
    ∧ (sA4.goals 1).cancelled = true ∧ (sA4.goals 1).completed = true := by
  decide

/-- Witness for C2: against the doubly-flagged goal 1 of `sA4`, attach,
transfer, finalize and (since it is cancelled) cancel all fail. -/
theorem terminal_flags_block_witness :
    (attachDeposits demoOracle 0 5 1 [2] sA4).isOk = false
    ∧ (transferDeposit demoOracle 0 5 1 2 1 sA4).isOk = false
    ∧ (finalizeGoalIfCompleted demoOracle 7 1 sA4).isOk = false
    ∧ (cancelGoal demoOracle 5 1 sA4).isOk = false := by
  have h := terminal_flags_block demoOracle 0 5 5 5 1 1 2 1 1 [2] sA4
    (by decide) (Or.inl (by decide))
  exact ⟨h.1, h.2.2.2.1 (Or.inl rfl), h.2.2.2.2.1, h.2.2.2.2.2 (by decide)⟩

/-! ### C4: auto-enrollment -/

/-- After the admin whitelists notifier 9 on the fresh contract. -/
def sB1 : GMState := runTx (setNotifier 7 9 true) sA0

/-- After notifier 9 auto-attaches deposit 1 of user 5 on vault 1
(lazily creating quicksave goal 1). -/
def sB2 : GMState := runTx (autoAttachToQuicksave demoOracle 0 9 5 1 1) sB1

/-- After the admin pauses attachments. -/
def sB3 : GMState := runTx (setAttachmentsPaused 7 true) sB2

/-- Claim C4 counterexample: with attachments paused, `autoAttachToQuicksave`
still succeeds while a direct `attachDeposits` of the same single id against
the same default goal reverts with the paused error; likewise past the goal's
target date the auto path succeeds while direct attach reverts with the
window error — so the auto path does not perform "exactly the same checks as
attach". -/
theorem autoattach_ignores_pause_and_window :
    (setNotifier 7 9 true sA0).isOk = true
    ∧ (autoAttachToQuicksave demoOracle 0 9 5 1 1 sB1).isOk = true
    ∧ (setAttachmentsPaused 7 true sB2).isOk = true
    ∧ sB3.attachmentsPaused = true
    ∧ sB3.quicksaveGoalOf 1 5 = 1
    ∧ (autoAttachToQuicksave demoOracle 0 9 5 1 2 sB3).isOk = true
    ∧ errOf (attachDeposits demoOracle 0 5 1 [2] sB3) = some .AttachmentsPausedErr
    ∧ (sB2.goals 1).targetDate = 2592000
    ∧ (autoAttachToQuicksave demoOracle 99999999 9 5 1 3 sB2).isOk = true
    ∧ errOf (attachDeposits demoOracle 99999999 5 1 [3] sB2) = some .GoalWindowPassed := by
  decide

/-- Claim C4 (amended): `autoAttachToQuicksave` fails with the notifier error
whenever the caller is not whitelisted; otherwise, against an existing
default goal it succeeds iff the goal is non-terminal, both capacity caps
admit one more attachment, the oracle reports positive value, the lock check
holds when the goal is targeted (vacuous for a default goal), and the deposit
key is unattached; when no default goal exists one is lazily created and the
call succeeds iff the caps admit one attachment, the value is positive and
the key is unattached. Unlike direct attach, neither the attachments-paused
flag nor the goal's target date is checked. -/
theorem autoAttach_checks (o : Oracle) (now sender user vault did gid : Nat)
    (s : GMState) :
    (s.notifiers sender = false →
      autoAttachToQuicksave o now sender user vault did s = .error .NotAuthorizedNotifier)
    ∧ (s.notifiers sender = true → user ≠ 0 → vault ≠ 0 →
        s.quicksaveGoalOf vault user = gid → gid ≠ 0 →
        ((autoAttachToQuicksave o now sender user vault did s).isOk = true ↔
          ((s.goals gid).id ≠ 0 ∧ (s.goals gid).cancelled = false
            ∧ (s.goals gid).completed = false
            ∧ (s.attachments gid).length + 1 ≤ s.maxAttachmentsPerGoal
            ∧ (s.attachments gid).countP (fun a => a.owner == user) + 1
                ≤ s.maxAttachmentsPerUser
            ∧ 0 < (o.getUserDeposit (s.goals gid).vault user did).currentValue
            ∧ ((s.goals gid).targetAmount ≠ 0 →
                now ≤ (o.getUserDeposit (s.goals gid).vault user did).lockEnd)
            ∧ s.depositToGoal (depositKey (s.goals gid).vault user did) = 0)))
    ∧ (s.notifiers sender = true → user ≠ 0 → vault ≠ 0 →
        s.quicksaveGoalOf vault user = 0 → s.goalCounter ≠ 0 →
        s.attachments s.goalCounter = [] →
        ((autoAttachToQuicksave o now sender user vault did s).isOk = true ↔
          (1 ≤ s.maxAttachmentsPerGoal ∧ 1 ≤ s.maxAttachmentsPerUser
            ∧ 0 < (o.getUserDeposit vault user did).currentValue
            ∧ s.depositToGoal (depositKey vault user did) = 0))) := by
  refine ⟨?_, ?_, ?_⟩
  · intro hn
    simp only [autoAttachToQuicksave]
    rw [if_pos (by simp [hn])]
  · intro hn hu hv hq hgz
    simp only [autoAttachToQuicksave]
    rw [if_neg (by simp [hn]), if_neg (by simpa using hu), if_neg (by simpa using hv), hq,
      if_neg hgz]
    simp only [attachDepositOnBehalfSingle, attachLoopStep]
    split
    · rename_i h
      simp only [except_isOk_error, Bool.false_eq_true, false_iff]
      rintro ⟨c1, c2, c3, -⟩
      exact h ⟨c1, c2, c3⟩
    · rename_i h
      obtain ⟨h1, h2, h3⟩ := not_not.mp h
      split
      · rename_i h4
        simp only [except_isOk_error, Bool.false_eq_true, false_iff]
        rintro ⟨-, -, -, c4, -⟩
        exact h4 c4
      · rename_i h4
        split
        · rename_i h5
          simp only [except_isOk_error, Bool.false_eq_true, false_iff]
          rintro ⟨-, -, -, -, c5, -⟩
          exact h5 c5
        · rename_i h5
          split
          · rename_i h6
            simp only [except_isOk_error, Bool.false_eq_true, false_iff]
            rintro ⟨-, -, -, -, -, c6, -⟩
            omega
          · rename_i h6
            split
            · rename_i h7
              simp only [except_isOk_error, Bool.false_eq_true, false_iff]
              rintro ⟨-, -, -, -, -, -, c7, -⟩
              rcases h7 with ⟨hta, hlock⟩
              have := c7 (by simpa using hta)
              omega
            · rename_i h7
              split
              · rename_i h8
                simp only [except_isOk_error, Bool.false_eq_true, false_iff]
                rintro ⟨-, -, -, -, -, -, -, c8⟩
                exact h8 c8
              · rename_i h8
                simp only [except_isOk_ok, eq_self_iff_true, true_iff]
                refine ⟨h1, h2, h3, by omega, by omega, by omega, ?_, by tauto⟩
                intro hta
                rcases not_and_or.mp h7 with h | h
                · exact absurd (of_decide_eq_true (not_not.mp h)) hta
                · omega
  · intro hn hu hv hq hc1 hc2
    simp only [autoAttachToQuicksave]
    rw [if_neg (by simp [hn]), if_neg (by simpa using hu), if_neg (by simpa using hv),
      if_pos hq]
    simp only [attachDepositOnBehalfSingle, attachLoopStep, createQuicksaveInternal,
      upd_same, hc2]
    rw [if_neg (not_not_intro ⟨hc1, trivial, trivial⟩)]
    simp only [List.length_nil, List.countP_nil]
    split
    · rename_i h4
      simp only [except_isOk_error, Bool.false_eq_true, false_iff]
      rintro ⟨c4, -⟩
      omega
    · rename_i h4
      split
      · rename_i h5
        simp only [except_isOk_error, Bool.false_eq_true, false_iff]
        rintro ⟨-, c5, -⟩
        omega
      · rename_i h5
        split
        · rename_i h6
          simp only [except_isOk_error, Bool.false_eq_true, false_iff]
          rintro ⟨-, -, c6, -⟩
          omega
        · rename_i h6
          split
          · rename_i h7
            simp at h7
          · rename_i h7
            split
            · rename_i h8
              simp only [except_isOk_error, Bool.false_eq_true, false_iff]
              rintro ⟨-, -, -, c8⟩
              exact h8 c8
            · rename_i h8
              simp only [except_isOk_ok, eq_self_iff_true, true_iff]
              refine ⟨by omega, by omega, by omega, by tauto⟩

/-- Witness for C4: concrete applications of `autoAttach_checks` in `sB3`
(existing default goal 1, attachments paused) and in `sB1` (no default goal
yet): the non-whitelisted caller 8 is rejected, and the whitelisted
notifier 9 succeeds against both the existing and the lazily-created goal. -/
theorem autoAttach_checks_witness :
    autoAttachToQuicksave demoOracle 0 8 5 1 2 sB3 = .error .NotAuthorizedNotifier
    ∧ (autoAttachToQuicksave demoOracle 0 9 5 1 2 sB3).isOk = true
    ∧ (autoAttachToQuicksave demoOracle 0 9 5 1 1 sB1).isOk = true := by
  refine ⟨(autoAttach_checks demoOracle 0 8 5 1 2 1 sB3).1 (by decide), ?_, ?_⟩
  · exact ((autoAttach_checks demoOracle 0 9 5 1 2 1 sB3).2.1 (by decide) (by decide)
      (by decide) (by decide) (by decide)).mpr
      ⟨by decide, by decide, by decide, by decide, by decide, by decide,
        by intro h; exact absurd rfl h, by decide⟩
  · exact ((autoAttach_checks demoOracle 0 9 5 1 1 1 sB1).2.2 (by decide) (by decide)
      (by decide) (by decide) (by decide) (by decide)).mpr
      ⟨by decide, by decide, by decide, by decide⟩

/-! ### C6: detach conditions -/

theorem runTx_eq_of_error (f : GMState → Except Err GMState) (s : GMState)
    (h : (f s).isOk = false) : runTx f s = s := by
  unfold runTx
  cases hf : f s with
  | ok s' => rw [hf] at h; cases h
  | error e => rfl

theorem detach_single_ok_iff (o : Oracle) (now sender gid idx : Nat) (s : GMState)
    (hid : (s.goals gid).id ≠ 0) (a : Attachment)
    (ha : (s.attachments gid)[idx]? = some a) :
    (detachAttachments o now sender gid [idx] s).isOk = true ↔
      (a.owner = sender ∧ a.pledged = false
        ∧ ((s.goals gid).cancelled = true
            ∨ (o.getUserDeposit (s.goals gid).vault a.owner a.depositId).lockEnd ≤ now)) := by
  have hlt : idx < (s.attachments gid).length := by
    by_contra hcon
    rw [List.getElem?_eq_none (by omega)] at ha
    cases ha
  have hchk : checkIndices (s.attachments gid).length none [idx] = .ok () :=
    (checkIndices_ok_iff [idx] none).mpr ⟨by simpa using hlt, by simp [prevCons]⟩
  simp only [detachAttachments]
  rw [if_neg hid, if_neg (by simp), hchk]
  simp only [List.foldlM_cons, List.foldlM_nil, detachLoopStep, ha]
  split
  · rename_i h1
    simp only [except_bind_error, except_isOk_error, Bool.false_eq_true, false_iff]
    rintro ⟨c1, -⟩
    exact h1 c1
  · rename_i h1
    split
    · rename_i h2
      simp only [except_bind_error, except_isOk_error, Bool.false_eq_true, false_iff]
      rintro ⟨-, c2, -⟩
      rw [c2] at h2
      cases h2
    · rename_i h2
      split
      · rename_i h3
        simp only [except_bind_error, except_isOk_error, Bool.false_eq_true, false_iff]
        rintro ⟨-, -, c3⟩
        exact h3 c3
      · rename_i h3
        simp only [except_bind_ok, pure, Except.pure, except_isOk_ok, eq_self_iff_true,
          true_iff]
        refine ⟨not_not.mp h1, by revert h2; cases a.pledged <;> simp, not_not.mp h3⟩

theorem cancelGoal_ok (o : Oracle) (sender gid : Nat) (s s2 : GMState)
    (h : cancelGoal o sender gid s = .ok s2) :
    s2 = { s with goals := upd s.goals gid { s.goals gid with cancelled := true } } := by
  simp only [cancelGoal] at h
  split at h
  · cases h
  · split at h
    · cases h
    · split at h
      · cases h
      · split at h
        · cases h
        · exact (Except.ok.inj h).symm

/-- Claim C6: with an existing goal and a referenced attachment, a
single-index detach succeeds iff the attachment is owned by the caller, not
pledged, and either past its lock expiry or on a cancelled goal (the lock is
bypassed); a failing detach removes nothing; and after a successful cancel
the same caller-owned unpledged detach succeeds. -/
theorem detach_single_conditions (o : Oracle) (now sender sender2 gid idx : Nat)
    (s : GMState) (hid : (s.goals gid).id ≠ 0) (a : Attachment)
    (ha : (s.attachments gid)[idx]? = some a) :
    ((detachAttachments o now sender gid [idx] s).isOk = true ↔
      (a.owner = sender ∧ a.pledged = false
        ∧ ((s.goals gid).cancelled = true
            ∨ (o.getUserDeposit (s.goals gid).vault a.owner a.depositId).lockEnd ≤ now)))
    ∧ ((detachAttachments o now sender gid [idx] s).isOk = false →
        runTx (detachAttachments o now sender gid [idx]) s = s)
    ∧ (∀ s2, cancelGoal o sender2 gid s = .ok s2 → a.owner = sender → a.pledged = false →
        (detachAttachments o now sender gid [idx] s2).isOk = true) := by
  refine ⟨detach_single_ok_iff o now sender gid idx s hid a ha,
    runTx_eq_of_error _ s, ?_⟩
  intro s2 hcg hown hpl
  have hs2 := cancelGoal_ok o sender2 gid s s2 hcg
  subst hs2
  refine (detach_single_ok_iff o now sender gid idx _ (by simpa using hid) a
    (by simpa using ha)).mpr ⟨hown, hpl, Or.inl (by simp)⟩

/-- Witness for C6: in `sA2` the still-locked attachment (lock expiry 100,
now 0) cannot be detached; after the creator cancels the goal, the same
detach succeeds. -/
theorem detach_single_conditions_witness :
    (detachAttachments demoOracle 0 5 1 [0] sA2).isOk = false
    ∧ ∃ s2, cancelGoal demoOracle 5 1 sA2 = .ok s2
        ∧ (detachAttachments demoOracle 0 5 1 [0] s2).isOk = true := by
  refine ⟨by decide, ?_⟩
  obtain ⟨s2, hs2⟩ := (except_isOk_iff (cancelGoal demoOracle 5 1 sA2)).mp (by decide)
  refine ⟨s2, hs2, ?_⟩
  exact (detach_single_conditions demoOracle 0 5 5 1 0 sA2 (by decide)
    ⟨5, 1, 0, false⟩ (by decide)).2.2 s2 hs2 rfl rfl

/-! ### C7: batched swap-remove detach -/

theorem detachLoopStep_ok_of (o : Oracle) (now sender gid gVault : Nat)
    (gCancelled : Bool) (s : GMState) (idx : Nat) (a : Attachment)
    (ha : (s.attachments gid)[idx]? = some a)
    (hown : a.owner = sender) (hpl : a.pledged = false)
    (hlock : gCancelled = true ∨ (o.getUserDeposit gVault a.owner a.depositId).lockEnd ≤ now) :
    detachLoopStep o now sender gid gVault gCancelled s idx
      = .ok { s with
          depositToGoal := upd s.depositToGoal (depositKey gVault a.owner a.depositId) 0
          attachments := upd s.attachments gid (swapRemove (s.attachments gid) idx) } := by
  simp only [detachLoopStep, ha]
  rw [if_neg (not_not_intro hown), if_neg (by simp [hpl]), if_neg (not_not_intro hlock)]

theorem detach_fold (o : Oracle) (now sender gid gVault : Nat) (gCancelled : Bool)
    (orig : List Attachment) :
    ∀ (indices : List Nat) (s : GMState) (m : Nat),
      (∀ j, j < m → (s.attachments gid)[j]? = orig[j]?) →
      m ≤ (s.attachments gid).length →
      indices.Pairwise (· > ·) →
      (∀ i ∈ indices, i < m) →
      (∀ i ∈ indices, (orig.getD i dfltAttachment).owner = sender
        ∧ (orig.getD i dfltAttachment).pledged = false
        ∧ (gCancelled = true ∨
            (o.getUserDeposit gVault (orig.getD i dfltAttachment).owner
              (orig.getD i dfltAttachment).depositId).lockEnd ≤ now)) →
      ∃ s', indices.foldlM (detachLoopStep o now sender gid gVault gCancelled) s = .ok s'
        ∧ (s'.attachments gid
            ++ indices.map (fun j => orig.getD j dfltAttachment)).Perm (s.attachments gid)
        ∧ (∀ g2, g2 ≠ gid → s'.attachments g2 = s.attachments g2)
        ∧ s'.goals = s.goals ∧ s'.goalCounter = s.goalCounter := by
  intro indices
  induction indices with
  | nil =>
    intro s m _ _ _ _ _
    exact ⟨s, rfl, by simp, fun _ _ => rfl, rfl, rfl⟩
  | cons i rest ih =>
    intro s m hagree hm hpw hb hchecks
    have hiM : i < m := hb i (by simp)
    have hilen : i < (s.attachments gid).length := lt_of_lt_of_le hiM hm
    have hsome : (s.attachments gid)[i]? = some ((s.attachments gid)[i]) :=
      List.getElem?_eq_getElem hilen
    have horig : orig[i]? = some ((s.attachments gid)[i]) := by
      rw [← hagree i hiM, hsome]
    have hio : i < orig.length := by
      by_contra hcon
      rw [List.getElem?_eq_none (by omega)] at horig
      cases horig
    have hgetD : orig.getD i dfltAttachment = (s.attachments gid)[i] := by
      rw [List.getD_eq_getElem orig dfltAttachment hio]
      have h2 : orig[i]? = some (orig[i]) := List.getElem?_eq_getElem hio
      rw [h2] at horig
      exact Option.some.inj horig
    obtain ⟨hown, hpl, hlock⟩ := hchecks i (by simp)
    rw [hgetD] at hown hpl hlock
    have hstep := detachLoopStep_ok_of o now sender gid gVault gCancelled s i
      ((s.attachments gid)[i]) hsome hown hpl hlock
    have hpw2 := List.pairwise_cons.mp hpw
    have hs1att : ({ s with
        depositToGoal := upd s.depositToGoal
          (depositKey gVault ((s.attachments gid)[i]).owner
            ((s.attachments gid)[i]).depositId) 0
        attachments := upd s.attachments gid
          (swapRemove (s.attachments gid) i) } : GMState).attachments gid
        = swapRemove (s.attachments gid) i := by
      simp
    obtain ⟨s', hfold, hperm, hother, hgoals, hcounter⟩ := ih
      { s with
        depositToGoal := upd s.depositToGoal
          (depositKey gVault ((s.attachments gid)[i]).owner
            ((s.attachments gid)[i]).depositId) 0
        attachments := upd s.attachments gid (swapRemove (s.attachments gid) i) }
      i
      (by
        intro j hj
        rw [hs1att, getElem?_swapRemove_lt hj hilen]
        exact hagree j (lt_trans hj hiM))
      (by
        rw [hs1att, length_swapRemove _ _ hilen]
        omega)
      hpw2.2
      (fun r hr => hpw2.1 r hr)
      (fun r hr => hchecks r (by simp [hr]))
    refine ⟨s', ?_, ?_, ?_, ?_, ?_⟩
    · rw [List.foldlM_cons, hstep, except_bind_ok, hfold]
    · rw [hs1att] at hperm
      have hmap : (i :: rest).map (fun j => orig.getD j dfltAttachment)
          = orig.getD i dfltAttachment :: rest.map (fun j => orig.getD j dfltAttachment) :=
        rfl
      rw [hmap, hgetD]
      exact List.perm_middle.trans
        ((hperm.cons ((s.attachments gid)[i])).trans
          (swapRemove_perm (s.attachments gid) i hilen))
    · intro g2 hg2
      rw [hother g2 hg2]
      simp [hg2]
    · exact hgoals
    · exact hcounter

/-- Claim C7: with in-bounds indices on an existing goal, (a) a strictly
descending batch whose referenced attachments all pass the per-attachment
checks succeeds and removes exactly the attachments originally stored at
those indices — the remaining multiset plus the removed originals is a
permutation of the original sequence, other goals untouched; (b) a batch
that is not strictly descending fails with the removal-order error and
removes nothing. -/
theorem detach_descending_removes_exactly (o : Oracle) (now sender gid : Nat)
    (indices : List Nat) (s : GMState) (hid : (s.goals gid).id ≠ 0)
    (hne : indices ≠ [])
    (hb : ∀ i ∈ indices, i < (s.attachments gid).length) :
    (indices.Pairwise (· > ·) →
      (∀ i ∈ indices,
        ((s.attachments gid).getD i dfltAttachment).owner = sender
        ∧ ((s.attachments gid).getD i dfltAttachment).pledged = false
        ∧ ((s.goals gid).cancelled = true ∨
            (o.getUserDeposit (s.goals gid).vault
              ((s.attachments gid).getD i dfltAttachment).owner
              ((s.attachments gid).getD i dfltAttachment).depositId).lockEnd ≤ now)) →
      ∃ s', detachAttachments o now sender gid indices s = .ok s'
        ∧ (s'.attachments gid
            ++ indices.map (fun j => (s.attachments gid).getD j dfltAttachment)).Perm
            (s.attachments gid)
        ∧ (∀ g2, g2 ≠ gid → s'.attachments g2 = s.attachments g2))
    ∧ (¬ indices.Pairwise (· > ·) →
        detachAttachments o now sender gid indices s = .error .IndicesNotDescending
        ∧ runTx (detachAttachments o now sender gid indices) s = s) := by
  have hlen0 : ¬ indices.length = 0 := by
    simpa [List.length_eq_zero] using hne
  constructor
  · intro hpw hchecks
    have hchk : checkIndices (s.attachments gid).length none indices = .ok () :=
      (checkIndices_ok_iff indices none).mpr
        ⟨hb, by
          rw [show prevCons none indices = indices from rfl]
          exact List.chain'_iff_pairwise.mpr hpw⟩
    obtain ⟨s', hfold, hperm, hother, _, _⟩ :=
      detach_fold o now sender gid (s.goals gid).vault (s.goals gid).cancelled
        (s.attachments gid) indices s (s.attachments gid).length
        (fun _ _ => rfl) (le_refl _) hpw hb hchecks
    refine ⟨s', ?_, hperm, hother⟩
    simp only [detachAttachments]
    rw [if_neg hid, if_neg hlen0, hchk, hfold]
  · intro hnpw
    have hchk : checkIndices (s.attachments gid).length none indices
        = .error .IndicesNotDescending :=
      checkIndices_err_notdesc indices none hb
        (by
          rw [show prevCons none indices = indices from rfl]
          exact fun hc => hnpw (List.chain'_iff_pairwise.mp hc))
    have herr : detachAttachments o now sender gid indices s
        = .error .IndicesNotDescending := by
      simp only [detachAttachments]
      rw [if_neg hid, if_neg hlen0, hchk]
    exact ⟨herr, runTx_eq_of_error _ s (by rw [herr]; rfl)⟩

/-- Goal 1 (open-ended) created by user 5 on a fresh contract. -/
def sD1 : GMState := runTx2 (createGoal 0 5 1 0 2592000 "" sA0) sA0

/-- Six deposits (ids 1..6, unlocked) attached to goal 1. -/
def sD2 : GMState := runTx (attachDeposits unlockedOracle 0 5 1 [1, 2, 3, 4, 5, 6]) sD1

/-- Witness for C7: detaching `[5, 3, 1]` from the six attachments of `sD2`
succeeds and removes exactly the originals at indices 5, 3 and 1, while the
ascending batch `[1, 3, 5]` fails with the removal-order error. -/
theorem detach_descending_removes_exactly_witness :
    (∃ s', detachAttachments unlockedOracle 50 5 1 [5, 3, 1] sD2 = .ok s'
      ∧ (s'.attachments 1
          ++ [5, 3, 1].map (fun j => (sD2.attachments 1).getD j dfltAttachment)).Perm
          (sD2.attachments 1)
      ∧ (∀ g2, g2 ≠ 1 → s'.attachments g2 = sD2.attachments g2))
    ∧ detachAttachments unlockedOracle 50 5 1 [1, 3, 5] sD2
        = .error .IndicesNotDescending := by
  have h := detach_descending_removes_exactly unlockedOracle 50 5 1 [5, 3, 1] sD2
    (by decide) (by decide) (by decide)
  have h2 := detach_descending_removes_exactly unlockedOracle 50 5 1 [1, 3, 5] sD2
    (by decide) (by decide) (by decide)
  refine ⟨h.1 (by decide) (by decide), (h2.2 (by decide)).1⟩

/-! ### Shared facts about the attach loop body -/

@[simp] theorem except_bind_pure {α : Type} (x : Except Err α) :
    (x >>= fun a => (pure a : Except Err α)) = x := by
  cases x <;> rfl

theorem attachLoopStep_ok_state (o : Oracle) (now gVault : Nat) (isQ : Bool)
    (gid owner : Nat) (s : GMState) (d : Nat) (s' : GMState)
    (h : attachLoopStep o now gVault isQ gid owner s d = .ok s') :
    s'.attachments gid = s.attachments gid
        ++ [{ owner := owner, depositId := d, attachedAt := now
              pledged := o.isDepositPledged gVault owner d }]
    ∧ (∀ g2, g2 ≠ gid → s'.attachments g2 = s.attachments g2)
    ∧ s'.goals = s.goals ∧ s'.goalCounter = s.goalCounter
    ∧ s'.depositToGoal (depositKey gVault owner d) = gid
    ∧ (∀ k, k ≠ depositKey gVault owner d → s'.depositToGoal k = s.depositToGoal k)
    ∧ s.depositToGoal (depositKey gVault owner d) = 0
    ∧ s'.quicksaveGoalOf = s.quicksaveGoalOf
    ∧ s'.maxAttachmentsPerGoal = s.maxAttachmentsPerGoal
    ∧ s'.maxAttachmentsPerUser = s.maxAttachmentsPerUser := by
  simp only [attachLoopStep] at h
  split at h
  · cases h
  · split at h
    · cases h
    · split at h
      · cases h
      · rename_i h1 h2 h3
        obtain rfl : _ = s' := Except.ok.inj h
        refine ⟨by simp, ?_, rfl, rfl, by simp, ?_, not_not.mp h3, rfl, rfl, rfl⟩
        · intro g2 hg2
          simp [hg2]
        · intro k hk
          simp [hk]

theorem attach_fold_mono (o : Oracle) (now gVault : Nat) (isQ : Bool)
    (gid owner : Nat) :
    ∀ (ids : List Nat) (s s' : GMState),
      ids.foldlM (attachLoopStep o now gVault isQ gid owner) s = .ok s' →
      ∀ x ∈ s.attachments gid, x ∈ s'.attachments gid := by
  intro ids
  induction ids with
  | nil =>
    intro s s' h x hx
    obtain rfl : s = s' := Except.ok.inj h
    exact hx
  | cons d rest ih =>
    intro s s' h x hx
    rw [List.foldlM_cons] at h
    cases hstep : attachLoopStep o now gVault isQ gid owner s d with
    | error e => rw [hstep] at h; cases h
    | ok s1 =>
      rw [hstep, except_bind_ok] at h
      obtain ⟨hatt, -, -, -, -, -, -, -, -, -⟩ :=
        attachLoopStep_ok_state o now gVault isQ gid owner s d s1 hstep
      exact ih s1 s' h x (by rw [hatt]; exact List.mem_append_left _ hx)

theorem attach_fold_ok (o : Oracle) (now gVault : Nat) (isQ : Bool)
    (gid owner : Nat) (hgid : gid ≠ 0) :
    ∀ (ids : List Nat) (s s' : GMState),
      ids.foldlM (attachLoopStep o now gVault isQ gid owner) s = .ok s' →
      (∀ d ∈ ids, s'.depositToGoal (depositKey gVault owner d) = gid
        ∧ ∃ a ∈ s'.attachments gid, a.owner = owner ∧ a.depositId = d)
      ∧ (s'.attachments gid).length = (s.attachments gid).length + ids.length
      ∧ (∀ g2, g2 ≠ gid → s'.attachments g2 = s.attachments g2)
      ∧ s'.goals = s.goals ∧ s'.goalCounter = s.goalCounter
      ∧ (∀ k, s.depositToGoal k ≠ 0 → s'.depositToGoal k = s.depositToGoal k) := by
  intro ids
  induction ids with
  | nil =>
    intro s s' h
    obtain rfl : s = s' := Except.ok.inj h
    exact ⟨by simp, by simp, fun _ _ => rfl, rfl, rfl, fun _ _ => rfl⟩
  | cons d rest ih =>
    intro s s' h
    rw [List.foldlM_cons] at h
    cases hstep : attachLoopStep o now gVault isQ gid owner s d with
    | error e => rw [hstep] at h; cases h
    | ok s1 =>
      rw [hstep, except_bind_ok] at h
      obtain ⟨hatt, hoth, hgoals, hcounter, hkey, hkeyoth, hkey0, -, -, -⟩ :=
        attachLoopStep_ok_state o now gVault isQ gid owner s d s1 hstep
      obtain ⟨ihall, ihlen, ihoth, ihgoals, ihcounter, ihkeys⟩ := ih s1 s' h
      refine ⟨?_, ?_, ?_, ?_, ?_, ?_⟩
      · intro d2 hd2
        rcases List.mem_cons.mp hd2 with rfl | hd2
        · refine ⟨by rw [ihkeys _ (by rw [hkey]; exact hgid), hkey], ?_⟩
          have hmem : (⟨owner, d2, now, o.isDepositPledged gVault owner d2⟩ : Attachment)
              ∈ s1.attachments gid := by
            rw [hatt]; simp
          exact ⟨_, attach_fold_mono o now gVault isQ gid owner rest s1 s' h _ hmem,
            rfl, rfl⟩
        · exact ihall d2 hd2
      · rw [ihlen, hatt]
        simp
        omega
      · intro g2 hg2
        rw [ihoth g2 hg2, hoth g2 hg2]
      · rw [ihgoals, hgoals]
      · rw [ihcounter, hcounter]
      · intro k hk
        by_cases hkk : k = depositKey gVault owner d
        · rw [hkk] at hk
          exact absurd hkey0 hk
        · rw [ihkeys k (by rw [hkeyoth k hkk]; exact hk), hkeyoth k hkk]

theorem detach_fold_len (o : Oracle) (now sender gid gVault : Nat) (gCancelled : Bool) :
    ∀ (indices : List Nat) (s s' : GMState),
      indices.foldlM (detachLoopStep o now sender gid gVault gCancelled) s = .ok s' →
      (s'.attachments gid).length + indices.length = (s.attachments gid).length := by
  intro indices
  induction indices with
  | nil =>
    intro s s' h
    obtain rfl : s = s' := Except.ok.inj h
    simp
  | cons idx rest ih =>
    intro s s' h
    rw [List.foldlM_cons] at h
    cases hstep : detachLoopStep o now sender gid gVault gCancelled s idx with
    | error e => rw [hstep] at h; cases h
    | ok s1 =>
      rw [hstep, except_bind_ok] at h
      have hlen : (s1.attachments gid).length + 1 = (s.attachments gid).length := by
        simp only [detachLoopStep] at hstep
        cases ha : (s.attachments gid)[idx]? with
        | none => rw [ha] at hstep; cases hstep
        | some a =>
          have hidx : idx < (s.attachments gid).length := by
            by_contra hcon
            rw [List.getElem?_eq_none (by omega)] at ha
            cases ha
          rw [ha] at hstep
          repeat' split at hstep
          all_goals cases hstep
          all_goals simp only [upd_same, length_swapRemove _ _ hidx]
          all_goals omega
      have := ih s1 s' h
      simp only [List.length_cons]
      omega

/-! ### C9: all-or-nothing batches -/

/-- Claim C9: a failing multi-id attach or multi-index detach reverts the
whole transaction, leaving the state exactly as before (no prefix applied);
a succeeding multi-id attach records every id of the batch in the uniqueness
index and the goal's sequence (growing it by exactly the batch size), and a
succeeding multi-index detach shrinks the sequence by exactly the batch
size. -/
theorem batch_atomicity (o : Oracle) (now sender gid : Nat) (ids indices : List Nat)
    (s : GMState) (hgid : gid ≠ 0) :
    ((attachDeposits o now sender gid ids s).isOk = false →
      runTx (attachDeposits o now sender gid ids) s = s)
    ∧ (∀ s', attachDeposits o now sender gid ids s = .ok s' →
        (∀ d ∈ ids, s'.depositToGoal (depositKey (s.goals gid).vault sender d) = gid
          ∧ ∃ a ∈ s'.attachments gid, a.owner = sender ∧ a.depositId = d)
        ∧ (s'.attachments gid).length = (s.attachments gid).length + ids.length)
    ∧ ((detachAttachments o now sender gid indices s).isOk = false →
        runTx (detachAttachments o now sender gid indices) s = s)
    ∧ (∀ s', detachAttachments o now sender gid indices s = .ok s' →
        (s'.attachments gid).length + indices.length = (s.attachments gid).length) := by
  refine ⟨runTx_eq_of_error _ s, ?_, runTx_eq_of_error _ s, ?_⟩
  · intro s' h
    simp only [attachDeposits] at h
    split at h
    · cases h
    · split at h
      · cases h
      · split at h
        · cases h
        · split at h
          · cases h
          · split at h
            · cases h
            · split at h
              · cases h
              · have := attach_fold_ok o now (s.goals gid).vault
                  ((s.goals gid).targetAmount = 0) gid sender hgid ids s s' h
                exact ⟨this.1, this.2.1⟩
  · intro s' h
    simp only [detachAttachments] at h
    split at h
    · cases h
    · split at h
      · cases h
      · split at h
        · cases h
        · exact detach_fold_len o now sender gid (s.goals gid).vault
            (s.goals gid).cancelled indices s s' h

/-- Witness for C9: in `sD2`, attaching `[7, 8]` succeeds and adds both
deposits (length 6 to 8, both keys indexed to goal 1), a batch containing the
already-attached id 3 reverts leaving the state unchanged, and detaching
`[5, 3, 1]` shrinks the sequence from 6 to 3. -/
theorem batch_atomicity_witness :
    ((attachDeposits unlockedOracle 0 5 1 [7, 3] sD2).isOk = false
      → runTx (attachDeposits unlockedOracle 0 5 1 [7, 3]) sD2 = sD2)
    ∧ (attachDeposits unlockedOracle 0 5 1 [7, 3] sD2).isOk = false
    ∧ (∃ s', attachDeposits unlockedOracle 0 5 1 [7, 8] sD2 = .ok s'
        ∧ (∀ d ∈ [7, 8], s'.depositToGoal (depositKey (sD2.goals 1).vault 5 d) = 1
            ∧ ∃ a ∈ s'.attachments 1, a.owner = 5 ∧ a.depositId = d)
        ∧ (s'.attachments 1).length = (sD2.attachments 1).length + 2)
    ∧ (∀ s', detachAttachments unlockedOracle 50 5 1 [5, 3, 1] sD2 = .ok s' →
        (s'.attachments 1).length + 3 = (sD2.attachments 1).length) := by
  have h := batch_atomicity unlockedOracle 0 5 1 [7, 3] [5, 3, 1] sD2 (by decide)
  have h2 := batch_atomicity unlockedOracle 0 5 1 [7, 8] [5, 3, 1] sD2 (by decide)
  refine ⟨h.1, by decide, ?_, ?_⟩
  · obtain ⟨s', hs'⟩ := (except_isOk_iff
      (attachDeposits unlockedOracle 0 5 1 [7, 8] sD2)).mp (by decide)
    obtain ⟨hall, hlen⟩ := h2.2.1 s' hs'
    exact ⟨s', hs', hall, hlen⟩
  · intro s' hs'
    have h3 := batch_atomicity unlockedOracle 50 5 1 [7, 8] [5, 3, 1] sD2 (by decide)
    exact h3.2.2.2 s' hs'

/-! ### C10: attach is pledge-agnostic but records the pledge flag -/

theorem attachLoopStep_pledge (o o2 : Oracle)
    (hdep : o.getUserDeposit = o2.getUserDeposit) (now gVault : Nat) (isQ : Bool)
    (gid owner : Nat) (s : GMState) (d : Nat) :
    (attachLoopStep o now gVault isQ gid owner s d).isOk
      = (attachLoopStep o2 now gVault isQ gid owner s d).isOk := by
  simp only [attachLoopStep, hdep]
  repeat' split
  all_goals rfl

theorem attachOnBehalfSingle_pledge (o o2 : Oracle)
    (hdep : o.getUserDeposit = o2.getUserDeposit) (now gid owner did : Nat)
    (s : GMState) :
    (attachDepositOnBehalfSingle o now gid owner did s).isOk
      = (attachDepositOnBehalfSingle o2 now gid owner did s).isOk := by
  simp only [attachDepositOnBehalfSingle]
  repeat' split
  all_goals try rfl
  all_goals (apply attachLoopStep_pledge; exact hdep)

theorem attachOnBehalfSingle_ok_att (o : Oracle) (now gid owner did : Nat)
    (s s' : GMState) (h : attachDepositOnBehalfSingle o now gid owner did s = .ok s') :
    s'.attachments gid = s.attachments gid
      ++ [⟨owner, did, now, o.isDepositPledged (s.goals gid).vault owner did⟩]
    ∧ s'.goals = s.goals := by
  simp only [attachDepositOnBehalfSingle] at h
  repeat' split at h
  all_goals try (cases h; done)
  have hst := attachLoopStep_ok_state _ _ _ _ _ _ _ _ _ h
  exact ⟨hst.1, hst.2.2.1⟩

/-- Claim C10: no attach path ever rejects a deposit for being pledged —
replacing the oracle's pledge report by any other leaves success unchanged
for `attachDeposits`, `attachDepositsOnBehalf` and `autoAttachToQuicksave`
on a single deposit — and a successful attach stores the attachment with its
`pledged` flag initialized to the oracle's `isDepositPledged` value read at
attach time. -/
theorem attach_ignores_pledge_state (dep : Nat → Nat → Nat → DepositView)
    (pl pl2 : Nat → Nat → Nat → Bool) (now sender owner user vault gid did : Nat)
    (s : GMState) :
    ((attachDeposits ⟨dep, pl⟩ now sender gid [did] s).isOk
      = (attachDeposits ⟨dep, pl2⟩ now sender gid [did] s).isOk)
    ∧ (∀ s', attachDeposits ⟨dep, pl⟩ now sender gid [did] s = .ok s' →
        s'.attachments gid = s.attachments gid
          ++ [⟨sender, did, now, pl (s.goals gid).vault sender did⟩])
    ∧ ((attachDepositsOnBehalf ⟨dep, pl⟩ now sender gid owner [did] s).isOk
      = (attachDepositsOnBehalf ⟨dep, pl2⟩ now sender gid owner [did] s).isOk)
    ∧ (∀ s', attachDepositsOnBehalf ⟨dep, pl⟩ now sender gid owner [did] s = .ok s' →
        s'.attachments gid = s.attachments gid
          ++ [⟨owner, did, now, pl (s.goals gid).vault owner did⟩])
    ∧ ((autoAttachToQuicksave ⟨dep, pl⟩ now sender user vault did s).isOk
      = (autoAttachToQuicksave ⟨dep, pl2⟩ now sender user vault did s).isOk)
    ∧ (∀ s', autoAttachToQuicksave ⟨dep, pl⟩ now sender user vault did s = .ok s' →
        ∃ gid2 l, s'.attachments gid2
          = l ++ [⟨user, did, now, pl (s'.goals gid2).vault user did⟩]) := by
  refine ⟨?_, ?_, ?_, ?_, ?_, ?_⟩
  · simp only [attachDeposits]
    repeat' split
    all_goals try rfl
    all_goals (simp only [List.foldlM_cons, List.foldlM_nil, except_bind_pure]
               apply attachLoopStep_pledge
               rfl)
  · intro s' h
    simp only [attachDeposits] at h
    repeat' split at h
    all_goals try (cases h; done)
    simp only [List.foldlM_cons, List.foldlM_nil, except_bind_pure] at h
    exact (attachLoopStep_ok_state _ _ _ _ _ _ _ _ _ h).1
  · simp only [attachDepositsOnBehalf]
    repeat' split
    all_goals try rfl
    all_goals (simp only [List.foldlM_cons, List.foldlM_nil, except_bind_pure]
               apply attachLoopStep_pledge
               rfl)
  · intro s' h
    simp only [attachDepositsOnBehalf] at h
    repeat' split at h
    all_goals try (cases h; done)
    simp only [List.foldlM_cons, List.foldlM_nil, except_bind_pure] at h
    exact (attachLoopStep_ok_state _ _ _ _ _ _ _ _ _ h).1
  · simp only [autoAttachToQuicksave]
    repeat' split
    all_goals try rfl
    all_goals (apply attachOnBehalfSingle_pledge; rfl)
  · intro s' h
    simp only [autoAttachToQuicksave] at h
    repeat' split at h
    all_goals try (cases h; done)
    all_goals (
      obtain ⟨hatt, hgoals⟩ := attachOnBehalfSingle_ok_att _ _ _ _ _ _ _ h
      rw [← hgoals] at hatt
      exact ⟨_, _, hatt⟩)

/-- Witness for C10: in `sD2` with an oracle reporting deposit 9 as pledged
elsewhere, attaching it succeeds anyway and the stored attachment enters
goal 1 with `pledged = true`. -/
theorem attach_ignores_pledge_state_witness :
    ((attachDeposits ⟨fun _ _ d => ⟨0, d + 1, 0, 0, false⟩, fun _ _ _ => true⟩
        0 5 1 [9] sD2).isOk
      = (attachDeposits unlockedOracle 0 5 1 [9] sD2).isOk)
    ∧ (attachDeposits unlockedOracle 0 5 1 [9] sD2).isOk = true
    ∧ (∀ s', attachDeposits ⟨fun _ _ d => ⟨0, d + 1, 0, 0, false⟩, fun _ _ _ => true⟩
        0 5 1 [9] sD2 = .ok s' →
        s'.attachments 1 = sD2.attachments 1 ++ [⟨5, 9, 0, true⟩]) := by
  have h := attach_ignores_pledge_state (fun _ _ d => ⟨0, d + 1, 0, 0, false⟩)
    (fun _ _ _ => true) (fun _ _ _ => false) 0 5 5 5 1 1 9 sD2
  exact ⟨h.1, by decide, h.2.1⟩

/-- Witness for C5: in `sA2` (target 10, attached value 10) the admin's
finalize succeeds; and in `sA1` (target 10, no attachments) it reverts with
the not-completed error, leaving the state unchanged. -/
theorem finalize_spec_witness :
    (finalizeGoalIfCompleted demoOracle 7 1 sA2).isOk = true
    ∧ finalizeGoalIfCompleted demoOracle 7 1 sA1 = .error .NotCompletedOrNoTarget := by
  constructor
  · exact (finalize_spec demoOracle 7 1 10 10000 sA2 (by decide) (by decide) (by decide)
      (by decide)).1.mpr ⟨Or.inr (by decide), by decide, by decide⟩
  · exact ((finalize_spec demoOracle 7 1 0 0 sA1 (by decide) (by decide) (by decide)
      (by decide)).2.2 (Or.inr (by decide)) (by decide)).1

/-! ### C1 and C3: the step relation and the ledger invariants -/

/-- One successful external call to the contract, with arbitrary caller,
time and oracle view. -/
inductive Step : GMState → GMState → Prop where
  | createGoal (now sender vault ta td : Nat) (uri : String) (s : GMState)
      (gid : Nat) (s' : GMState) :
      createGoal now sender vault ta td uri s = .ok (gid, s') → Step s s'
  | createGoalFor (now sender creator vault ta td : Nat) (uri : String)
      (s : GMState) (gid : Nat) (s' : GMState) :
      createGoalFor now sender creator vault ta td uri s = .ok (gid, s') → Step s s'
  | createQuicksaveGoalFor (now sender user vault : Nat) (s : GMState)
      (gid : Nat) (s' : GMState) :
      createQuicksaveGoalFor now sender user vault s = .ok (gid, s') → Step s s'
  | autoAttach (o : Oracle) (now sender user vault did : Nat) (s s' : GMState) :
      autoAttachToQuicksave o now sender user vault did s = .ok s' → Step s s'
  | attachOnBehalf (o : Oracle) (now sender gid owner : Nat) (ids : List Nat)
      (s s' : GMState) :
      attachDepositsOnBehalf o now sender gid owner ids s = .ok s' → Step s s'
  | attach (o : Oracle) (now sender gid : Nat) (ids : List Nat) (s s' : GMState) :
      attachDeposits o now sender gid ids s = .ok s' → Step s s'
  | transfer (o : Oracle) (now sender fromG toG did : Nat) (s s' : GMState) :
      transferDeposit o now sender fromG toG did s = .ok s' → Step s s'
  | detach (o : Oracle) (now sender gid : Nat) (indices : List Nat) (s s' : GMState) :
      detachAttachments o now sender gid indices s = .ok s' → Step s s'
  | reportPledged (o : Oracle) (sender gid did : Nat) (s s' : GMState) :
      reportPledgedAttachment o sender gid did s = .ok s' → Step s s'
  | cancel (o : Oracle) (sender gid : Nat) (s s' : GMState) :
      cancelGoal o sender gid s = .ok s' → Step s s'
  | finalize (o : Oracle) (sender gid : Nat) (s s' : GMState) :
      finalizeGoalIfCompleted o sender gid s = .ok s' → Step s s'
  | setCreationPaused (sender : Nat) (b : Bool) (s s' : GMState) :
      setCreationPaused sender b s = .ok s' → Step s s'
  | setAttachmentsPaused (sender : Nat) (b : Bool) (s s' : GMState) :
      setAttachmentsPaused sender b s = .ok s' → Step s s'
  | updateAttachmentLimits (sender perGoal perUser : Nat) (s s' : GMState) :
      updateAttachmentLimits sender perGoal perUser s = .ok s' → Step s s'
  | setNotifier (sender addr : Nat) (allowed : Bool) (s s' : GMState) :
      setNotifier sender addr allowed s = .ok s' → Step s s'
  | setLeaderboard (sender addr : Nat) (s s' : GMState) :
      setLeaderboard sender addr s = .ok s' → Step s s'
  | setRole (sender role account : Nat) (val : Bool) (s s' : GMState) :
      setRoleMembership sender role account val s = .ok s' → Step s s'

/-- All states reachable from `s0` by successful contract calls. -/
def Reachable (s0 s : GMState) : Prop := Relation.ReflTransGen Step s0 s

/-- The attachments binding deposit `(o, d)`. -/
def keyMatch (o d : Nat) : Attachment → Bool :=
  fun a => a.owner == o && a.depositId == d

/-- How many attachments of goal `g` bind the deposit key `(v, o, d)`
(0 when the goal lives on another vault). -/
def cnt (s : GMState) (g v o d : Nat) : Nat :=
  if (s.goals g).vault = v then (s.attachments g).countP (keyMatch o d) else 0

/-- The ledger well-formedness invariant: ids below the counter, the
uniqueness index consistent with the per-goal sequences, and each attached
key held exactly once. -/
structure Inv (s : GMState) : Prop where
  counter_pos : 1 ≤ s.goalCounter
  fresh : ∀ g, (g = 0 ∨ s.goalCounter ≤ g) → (s.goals g).id = 0 ∧ s.attachments g = []
  key_lt : ∀ k, s.depositToGoal k ≠ 0 → s.depositToGoal k < s.goalCounter
  uniq0 : ∀ v o d, s.depositToGoal (v, o, d) = 0 → ∀ g, cnt s g v o d = 0
  uniq1 : ∀ v o d, s.depositToGoal (v, o, d) ≠ 0 →
      cnt s (s.depositToGoal (v, o, d)) v o d = 1
      ∧ ∀ g, g ≠ s.depositToGoal (v, o, d) → cnt s g v o d = 0

theorem inv_initialState (admin mg mu : Nat) : Inv (initialState admin mg mu) := by
  refine ⟨le_refl 1, ?_, ?_, ?_, ?_⟩
  · intro g _
    exact ⟨rfl, rfl⟩
  · intro k hk
    exact absurd rfl hk
  · intro v o d _ g
    simp [cnt, initialState, zeroGoal]
  · intro v o d h
    exact absurd rfl h

@[simp] theorem upd_upd_same {α β : Type} [DecidableEq α] (f : α → β) (a : α)
    (b c : β) : upd (upd f a b) a c = upd f a c := by
  funext x
  unfold upd
  by_cases hx : x = a <;> simp [hx]

theorem countP_single_keyMatch (o2 d2 : Nat) (a : Attachment) :
    List.countP (keyMatch o2 d2) [a]
      = if a.owner = o2 ∧ a.depositId = d2 then 1 else 0 := by
  by_cases ho : a.owner = o2 <;> by_cases hd : a.depositId = d2 <;>
    simp [keyMatch, List.countP_cons, ho, hd]

theorem cnt_append (s s' : GMState) (gid : Nat) (a : Attachment)
    (hatt : s'.attachments gid = s.attachments gid ++ [a])
    (hoth : ∀ g2, g2 ≠ gid → s'.attachments g2 = s.attachments g2)
    (hgoals : s'.goals = s.goals) (g v o2 d2 : Nat) :
    cnt s' g v o2 d2 = cnt s g v o2 d2
      + (if g = gid ∧ (s.goals gid).vault = v ∧ a.owner = o2 ∧ a.depositId = d2
         then 1 else 0) := by
  unfold cnt
  rw [hgoals]
  by_cases hgg : g = gid
  · subst hgg
    rw [hatt, List.countP_append, countP_single_keyMatch]
    by_cases hvv : (s.goals g).vault = v
    · rw [if_pos hvv, if_pos hvv]
      by_cases ho : a.owner = o2 <;> by_cases hd : a.depositId = d2 <;>
        simp [ho, hd, hvv]
    · rw [if_neg hvv, if_neg hvv]
      simp [hvv]
  · rw [hoth g hgg]
    simp [hgg]

theorem cnt_remove (s s' : GMState) (gid idx : Nat) (a : Attachment)
    (ha : (s.attachments gid)[idx]? = some a)
    (hatt : s'.attachments gid = swapRemove (s.attachments gid) idx)
    (hoth : ∀ g2, g2 ≠ gid → s'.attachments g2 = s.attachments g2)
    (hgoals : s'.goals = s.goals) (g v o2 d2 : Nat) :
    cnt s g v o2 d2 = cnt s' g v o2 d2
      + (if g = gid ∧ (s.goals gid).vault = v ∧ a.owner = o2 ∧ a.depositId = d2
         then 1 else 0) := by
  have hidx : idx < (s.attachments gid).length := by
    by_contra hcon
    rw [List.getElem?_eq_none (by omega)] at ha
    cases ha
  have hgeta : (s.attachments gid)[idx] = a := by
    have := List.getElem?_eq_getElem hidx
    rw [this] at ha
    exact Option.some.inj ha
  unfold cnt
  rw [hgoals]
  by_cases hgg : g = gid
  · subst hgg
    rw [hatt]
    by_cases hvv : (s.goals g).vault = v
    · rw [if_pos hvv, if_pos hvv]
      rw [countP_swapRemove (keyMatch o2 d2) (s.attachments g) idx hidx, hgeta]
      have : (if keyMatch o2 d2 a = true then 1 else 0)
          = if a.owner = o2 ∧ a.depositId = d2 then 1 else 0 := by
        by_cases ho : a.owner = o2 <;> by_cases hd : a.depositId = d2 <;>
          simp [keyMatch, ho, hd]
      rw [this]
      by_cases ho : a.owner = o2 <;> by_cases hd : a.depositId = d2 <;>
        simp [ho, hd, hvv] <;> omega
    · rw [if_neg hvv, if_neg hvv]
      simp [hvv]
  · rw [hoth g hgg]
    simp [hgg]

theorem dtg_eq_of_mem (s : GMState) (hInv : Inv s) (gid : Nat) (a : Attachment)
    (hmem : a ∈ s.attachments gid) :
    s.depositToGoal ((s.goals gid).vault, a.owner, a.depositId) = gid
    ∧ cnt s gid (s.goals gid).vault a.owner a.depositId = 1 := by
  have hpos : 0 < cnt s gid (s.goals gid).vault a.owner a.depositId := by
    unfold cnt
    rw [if_pos rfl]
    exact List.countP_pos.mpr ⟨a, hmem, by simp [keyMatch]⟩
  by_cases hz : s.depositToGoal ((s.goals gid).vault, a.owner, a.depositId) = 0
  · have := hInv.uniq0 _ _ _ hz gid
    omega
  · obtain ⟨h1, h2⟩ := hInv.uniq1 _ _ _ hz
    by_cases hgg : gid = s.depositToGoal ((s.goals gid).vault, a.owner, a.depositId)
    · rw [← hgg] at h1
      exact ⟨hgg.symm, h1⟩
    · have := h2 gid hgg
      omega

theorem inv_of_eq (s s' : GMState) (hg : s'.goals = s.goals)
    (ha : s'.attachments = s.attachments) (hd : s'.depositToGoal = s.depositToGoal)
    (hc : s'.goalCounter = s.goalCounter) (h : Inv s) : Inv s' := by
  have hcnt : ∀ g v o2 d2, cnt s' g v o2 d2 = cnt s g v o2 d2 := by
    intro g v o2 d2
    unfold cnt
    rw [hg, ha]
  refine ⟨by rw [hc]; exact h.counter_pos, ?_, ?_, ?_, ?_⟩
  · intro g hgf
    rw [hc] at hgf
    rw [hg, ha]
    exact h.fresh g hgf
  · intro k hk
    rw [hd] at hk ⊢
    rw [hc]
    exact h.key_lt k hk
  · intro v o2 d2 hz g
    rw [hd] at hz
    rw [hcnt]
    exact h.uniq0 v o2 d2 hz g
  · intro v o2 d2 hnz
    rw [hd] at hnz ⊢
    obtain ⟨h1, h2⟩ := h.uniq1 v o2 d2 hnz
    exact ⟨by rw [hcnt]; exact h1, fun g hgne => by rw [hcnt]; exact h2 g hgne⟩

theorem inv_append_att (s s' : GMState) (gid : Nat) (a : Attachment)
    (hgid0 : gid ≠ 0) (hgidlt : gid < s.goalCounter)
    (hatt : s'.attachments gid = s.attachments gid ++ [a])
    (hoth : ∀ g2, g2 ≠ gid → s'.attachments g2 = s.attachments g2)
    (hgoals : s'.goals = s.goals) (hcounter : s'.goalCounter = s.goalCounter)
    (hkey : s'.depositToGoal ((s.goals gid).vault, a.owner, a.depositId) = gid)
    (hkeyoth : ∀ k, k ≠ ((s.goals gid).vault, a.owner, a.depositId) →
        s'.depositToGoal k = s.depositToGoal k)
    (hkey0 : s.depositToGoal ((s.goals gid).vault, a.owner, a.depositId) = 0)
    (hInv : Inv s) : Inv s' := by
  have hcnt := cnt_append s s' gid a hatt hoth hgoals
  refine ⟨by rw [hcounter]; exact hInv.counter_pos, ?_, ?_, ?_, ?_⟩
  · intro g hg
    rw [hcounter] at hg
    have hne : g ≠ gid := by
      rintro rfl
      rcases hg with h0 | hle
      · exact hgid0 h0
      · omega
    exact ⟨by rw [hgoals]; exact (hInv.fresh g hg).1,
      by rw [hoth g hne]; exact (hInv.fresh g hg).2⟩
  · intro k hk
    rw [hcounter]
    by_cases hkk : k = ((s.goals gid).vault, a.owner, a.depositId)
    · rw [hkk, hkey]
      exact hgidlt
    · rw [hkeyoth k hkk] at hk ⊢
      exact hInv.key_lt k hk
  · intro v o2 d2 hz g
    by_cases hkk : ((v, o2, d2) : Nat × Nat × Nat)
        = ((s.goals gid).vault, a.owner, a.depositId)
    · rw [hkk, hkey] at hz
      exact absurd hz hgid0
    · have hz0 : s.depositToGoal (v, o2, d2) = 0 := by
        rw [← hkeyoth _ hkk]
        exact hz
      rw [hcnt g v o2 d2, hInv.uniq0 v o2 d2 hz0 g, if_neg ?_]
      · rintro ⟨-, hA, hB, hC⟩
        exact hkk (by rw [hA, hB, hC])
  · intro v o2 d2 hnz
    by_cases hkk : ((v, o2, d2) : Nat × Nat × Nat)
        = ((s.goals gid).vault, a.owner, a.depositId)
    · have hdg : s'.depositToGoal (v, o2, d2) = gid := by
        rw [hkk]
        exact hkey
      have hz : s.depositToGoal (v, o2, d2) = 0 := by
        rw [hkk]
        exact hkey0
      have hcomp : (s.goals gid).vault = v ∧ a.owner = o2 ∧ a.depositId = d2 := by
        have h2 := hkk
        simp only [Prod.mk.injEq] at h2
        exact ⟨h2.1.symm, h2.2.1.symm, h2.2.2.symm⟩
      rw [hdg]
      constructor
      · rw [hcnt gid v o2 d2, hInv.uniq0 v o2 d2 hz gid, if_pos ⟨rfl, hcomp⟩]
      · intro g hg
        rw [hcnt g v o2 d2, hInv.uniq0 v o2 d2 hz g,
          if_neg (by rintro ⟨rfl, -⟩; exact hg rfl)]
    · have hsk : s'.depositToGoal (v, o2, d2) = s.depositToGoal (v, o2, d2) :=
        hkeyoth _ hkk
      rw [hsk]
      have hnz0 : s.depositToGoal (v, o2, d2) ≠ 0 := by
        rw [← hsk]
        exact hnz
      obtain ⟨h1, h2⟩ := hInv.uniq1 v o2 d2 hnz0
      have hcondF : ∀ g, ¬(g = gid ∧ (s.goals gid).vault = v ∧ a.owner = o2
          ∧ a.depositId = d2) := by
        rintro g ⟨-, hA, hB, hC⟩
        exact hkk (by rw [hA, hB, hC])
      constructor
      · rw [hcnt _ v o2 d2, if_neg (hcondF _), Nat.add_zero]
        exact h1
      · intro g hg
        rw [hcnt g v o2 d2, if_neg (hcondF g), Nat.add_zero]
        exact h2 g hg

theorem inv_remove_att (s s' : GMState) (gid idx : Nat) (a : Attachment)
    (ha : (s.attachments gid)[idx]? = some a)
    (hatt : s'.attachments gid = swapRemove (s.attachments gid) idx)
    (hoth : ∀ g2, g2 ≠ gid → s'.attachments g2 = s.attachments g2)
    (hgoals : s'.goals = s.goals) (hcounter : s'.goalCounter = s.goalCounter)
    (hkey : s'.depositToGoal ((s.goals gid).vault, a.owner, a.depositId) = 0)
    (hkeyoth : ∀ k, k ≠ ((s.goals gid).vault, a.owner, a.depositId) →
        s'.depositToGoal k = s.depositToGoal k)
    (hInv : Inv s) : Inv s' := by
  have hidx : idx < (s.attachments gid).length := by
    by_contra hcon
    rw [List.getElem?_eq_none (by omega)] at ha
    cases ha
  have hmem : a ∈ s.attachments gid := by
    have hgeta : (s.attachments gid)[idx] = a := by
      have := List.getElem?_eq_getElem hidx
      rw [this] at ha
      exact Option.some.inj ha
    rw [← hgeta]
    exact List.getElem_mem hidx
  obtain ⟨hdgK, hcnt1⟩ := dtg_eq_of_mem s hInv gid a hmem
  have hgid0 : gid ≠ 0 := by
    intro h0
    subst h0
    have := hInv.uniq0 _ _ _ hdgK 0
    omega
  have hgidlt : gid < s.goalCounter := by
    have := hInv.key_lt ((s.goals gid).vault, a.owner, a.depositId)
      (by rw [hdgK]; exact hgid0)
    rw [hdgK] at this
    exact this
  have hcnt := cnt_remove s s' gid idx a ha hatt hoth hgoals
  refine ⟨by rw [hcounter]; exact hInv.counter_pos, ?_, ?_, ?_, ?_⟩
  · intro g hg
    rw [hcounter] at hg
    have hne : g ≠ gid := by
      rintro rfl
      rcases hg with h0 | hle
      · exact hgid0 h0
      · omega
    exact ⟨by rw [hgoals]; exact (hInv.fresh g hg).1,
      by rw [hoth g hne]; exact (hInv.fresh g hg).2⟩
  · intro k hk
    rw [hcounter]
    by_cases hkk : k = ((s.goals gid).vault, a.owner, a.depositId)
    · rw [hkk, hkey] at hk
      exact absurd rfl hk
    · rw [hkeyoth k hkk] at hk ⊢
      exact hInv.key_lt k hk
  · intro v o2 d2 hz g
    by_cases hkk : ((v, o2, d2) : Nat × Nat × Nat)
        = ((s.goals gid).vault, a.owner, a.depositId)
    · have hcomp : (s.goals gid).vault = v ∧ a.owner = o2 ∧ a.depositId = d2 := by
        have h2 := hkk
        simp only [Prod.mk.injEq] at h2
        exact ⟨h2.1.symm, h2.2.1.symm, h2.2.2.symm⟩
      have hdgv : s.depositToGoal (v, o2, d2) = gid := by
        rw [hkk]
        exact hdgK
      by_cases hgg : g = gid
      · subst hgg
        have := hcnt g v o2 d2
        rw [if_pos ⟨rfl, hcomp⟩] at this
        have hcs : cnt s g v o2 d2 = 1 := by
          have h3 := hcnt1
          rw [hcomp.1, hcomp.2.1, hcomp.2.2] at h3
          exact h3
        omega
      · have h2 := (hInv.uniq1 v o2 d2 (by rw [hdgv]; exact hgid0)).2 g
          (by rw [hdgv]; exact hgg)
        have := hcnt g v o2 d2
        rw [if_neg (by rintro ⟨rfl, -⟩; exact hgg rfl)] at this
        omega
    · have hz0 : s.depositToGoal (v, o2, d2) = 0 := by
        rw [← hkeyoth _ hkk]
        exact hz
      have := hcnt g v o2 d2
      rw [if_neg (by rintro ⟨-, hA, hB, hC⟩; exact hkk (by rw [hA, hB, hC]))] at this
      have h0 := hInv.uniq0 v o2 d2 hz0 g
      omega
  · intro v o2 d2 hnz
    by_cases hkk : ((v, o2, d2) : Nat × Nat × Nat)
        = ((s.goals gid).vault, a.owner, a.depositId)
    · rw [hkk, hkey] at hnz
      exact absurd rfl hnz
    · have hsk : s'.depositToGoal (v, o2, d2) = s.depositToGoal (v, o2, d2) :=
        hkeyoth _ hkk
      rw [hsk]
      have hnz0 : s.depositToGoal (v, o2, d2) ≠ 0 := by
        rw [← hsk]
        exact hnz
      obtain ⟨h1, h2⟩ := hInv.uniq1 v o2 d2 hnz0
      have hcondF : ∀ g, ¬(g = gid ∧ (s.goals gid).vault = v ∧ a.owner = o2
          ∧ a.depositId = d2) := by
        rintro g ⟨-, hA, hB, hC⟩
        exact hkk (by rw [hA, hB, hC])
      constructor
      · have := hcnt (s.depositToGoal (v, o2, d2)) v o2 d2
        rw [if_neg (hcondF _)] at this
        omega
      · intro g hg
        have := hcnt g v o2 d2
        rw [if_neg (hcondF g)] at this
        have := h2 g hg
        omega

theorem inv_attachLoopStep (o : Oracle) (now gVault : Nat) (isQ : Bool)
    (gid owner : Nat) (s : GMState) (d : Nat) (s' : GMState)
    (hInv : Inv s) (hgid : (s.goals gid).id ≠ 0) (hv : gVault = (s.goals gid).vault)
    (h : attachLoopStep o now gVault isQ gid owner s d = .ok s') : Inv s' := by
  subst hv
  obtain ⟨hatt, hoth, hgoals, hcounter, hkey, hkeyoth, hkey0, -, -, -⟩ :=
    attachLoopStep_ok_state o now (s.goals gid).vault isQ gid owner s d s' h
  have hb : ¬(gid = 0 ∨ s.goalCounter ≤ gid) := fun hc => hgid (hInv.fresh gid hc).1
  push_neg at hb
  exact inv_append_att s s' gid
    ⟨owner, d, now, o.isDepositPledged (s.goals gid).vault owner d⟩
    hb.1 (by omega) hatt hoth hgoals hcounter hkey hkeyoth hkey0 hInv

theorem inv_attach_fold (o : Oracle) (now gVault : Nat) (isQ : Bool)
    (gid owner : Nat) :
    ∀ (ids : List Nat) (s s' : GMState), Inv s → (s.goals gid).id ≠ 0 →
      gVault = (s.goals gid).vault →
      ids.foldlM (attachLoopStep o now gVault isQ gid owner) s = .ok s' → Inv s' := by
  intro ids
  induction ids with
  | nil =>
    intro s s' hInv _ _ h
    obtain rfl : s = s' := Except.ok.inj h
    exact hInv
  | cons d rest ih =>
    intro s s' hInv hgid hv h
    rw [List.foldlM_cons] at h
    cases hstep : attachLoopStep o now gVault isQ gid owner s d with
    | error e => rw [hstep] at h; cases h
    | ok s1 =>
      rw [hstep, except_bind_ok] at h
      have hInv1 := inv_attachLoopStep o now gVault isQ gid owner s d s1 hInv hgid hv hstep
      have hgoals : s1.goals = s.goals :=
        (attachLoopStep_ok_state o now gVault isQ gid owner s d s1 hstep).2.2.1
      exact ih s1 s' hInv1 (by rw [hgoals]; exact hgid) (by rw [hgoals]; exact hv) h

theorem inv_attachDeposits (o : Oracle) (now sender gid : Nat) (ids : List Nat)
    (s s' : GMState) (h : attachDeposits o now sender gid ids s = .ok s')
    (hInv : Inv s) : Inv s' := by
  simp only [attachDeposits] at h
  split at h
  · cases h
  · split at h
    · cases h
    · rename_i hvalid
      split at h
      · cases h
      · split at h
        · cases h
        · split at h
          · cases h
          · split at h
            · cases h
            · exact inv_attach_fold o now (s.goals gid).vault _ gid sender ids s s'
                hInv (not_not.mp hvalid).1 rfl h

theorem inv_attachDepositsOnBehalf (o : Oracle) (now sender gid owner : Nat)
    (ids : List Nat) (s s' : GMState)
    (h : attachDepositsOnBehalf o now sender gid owner ids s = .ok s')
    (hInv : Inv s) : Inv s' := by
  simp only [attachDepositsOnBehalf] at h
  split at h
  · cases h
  · split at h
    · cases h
    · split at h
      · cases h
      · rename_i hvalid
        split at h
        · cases h
        · split at h
          · cases h
          · split at h
            · cases h
            · split at h
              · cases h
              · exact inv_attach_fold o now (s.goals gid).vault _ gid owner ids s s'
                  hInv (not_not.mp hvalid).1 rfl h

theorem inv_attachOnBehalfSingle (o : Oracle) (now gid owner did : Nat)
    (s s' : GMState) (h : attachDepositOnBehalfSingle o now gid owner did s = .ok s')
    (hInv : Inv s) : Inv s' := by
  simp only [attachDepositOnBehalfSingle] at h
  split at h
  · cases h
  · rename_i hvalid
    split at h
    · cases h
    · split at h
      · cases h
      · exact inv_attachLoopStep o now (s.goals gid).vault _ gid owner s did s'
          hInv (not_not.mp hvalid).1 rfl h

theorem inv_new_goal (s s' : GMState) (g0 : Goal)
    (hgoals : s'.goals = upd s.goals s.goalCounter g0)
    (hatt : s'.attachments = s.attachments)
    (hdtg : s'.depositToGoal = s.depositToGoal)
    (hcounter : s'.goalCounter = s.goalCounter + 1)
    (hInv : Inv s) : Inv s' := by
  have hemp : s.attachments s.goalCounter = [] :=
    (hInv.fresh _ (Or.inr (le_refl _))).2
  have hcnt : ∀ g v o2 d2, cnt s' g v o2 d2 = cnt s g v o2 d2 := by
    intro g v o2 d2
    unfold cnt
    rw [hatt, hgoals]
    by_cases hgg : g = s.goalCounter
    · subst hgg
      rw [hemp]
      simp
    · rw [upd_ne _ _ _ hgg]
  have hc1 := hInv.counter_pos
  refine ⟨by omega, ?_, ?_, ?_, ?_⟩
  · intro g hg
    rw [hcounter] at hg
    have hgne : g ≠ s.goalCounter := by
      rcases hg with rfl | hg2 <;> omega
    rw [hgoals, upd_ne _ _ _ hgne, hatt]
    exact hInv.fresh g (by omega)
  · intro k hk
    rw [hdtg] at hk ⊢
    rw [hcounter]
    have := hInv.key_lt k hk
    omega
  · intro v o2 d2 hz g
    rw [hdtg] at hz
    rw [hcnt]
    exact hInv.uniq0 v o2 d2 hz g
  · intro v o2 d2 hnz
    rw [hdtg] at hnz ⊢
    obtain ⟨h1, h2⟩ := hInv.uniq1 v o2 d2 hnz
    exact ⟨by rw [hcnt]; exact h1, fun g hg => by rw [hcnt]; exact h2 g hg⟩

theorem inv_createQuicksaveInternal (now user vault : Nat) (s : GMState)
    (hInv : Inv s) : Inv (createQuicksaveInternal now user vault s).2 :=
  inv_new_goal s _ _ rfl rfl rfl rfl hInv

theorem inv_createGoalInternal (now creator vault ta td : Nat) (uri : String)
    (s : GMState) (gid : Nat) (s' : GMState)
    (h : createGoalInternal now creator vault ta td uri s = .ok (gid, s'))
    (hInv : Inv s) : Inv s' := by
  simp only [createGoalInternal] at h
  split at h
  · cases h
  · split at h
    · cases h
    · split at h
      · cases h
      · have h2 := Except.ok.inj h
        obtain ⟨h3, h4⟩ := Prod.mk.inj h2
        subst h4
        exact inv_new_goal s _ _ rfl rfl rfl rfl hInv

theorem inv_autoAttach (o : Oracle) (now sender user vault did : Nat)
    (s s' : GMState) (h : autoAttachToQuicksave o now sender user vault did s = .ok s')
    (hInv : Inv s) : Inv s' := by
  simp only [autoAttachToQuicksave] at h
  split at h
  · cases h
  · split at h
    · cases h
    · split at h
      · cases h
      · split at h
        · exact inv_attachOnBehalfSingle _ _ _ _ _ _ _ h
            (inv_createQuicksaveInternal now user vault s hInv)
        · exact inv_attachOnBehalfSingle _ _ _ _ _ _ _ h hInv

theorem inv_transfer (o : Oracle) (now sender fromG toG did : Nat) (s s' : GMState)
    (h : transferDeposit o now sender fromG toG did s = .ok s') (hInv : Inv s) :
    Inv s' := by
  simp only [transferDeposit] at h
  split at h
  · cases h
  · rename_i hne
    split at h
    · cases h
    · rename_i hids'
      split at h
      · cases h
      · rename_i hvaults'
        split at h
        · cases h
        · cases hfind : findFirstIdx (fun a => a.owner == sender && a.depositId == did)
              (s.attachments fromG) with
          | none => simp only [hfind] at h; cases h
          | some idx =>
            simp only [hfind] at h
            split at h
            · cases h
            · split at h
              · cases h
              · split at h
                · cases h
                · split at h
                  · cases h
                  · have hrec := Except.ok.inj h
                    subst hrec
                    obtain ⟨hidxlt, hp⟩ := findFirstIdx_some hfind
                    simp only [List.get_eq_getElem] at hp
                    have howner : ((s.attachments fromG)[idx]).owner = sender := by
                      simp at hp
                      exact hp.1
                    have hdid : ((s.attachments fromG)[idx]).depositId = did := by
                      simp at hp
                      exact hp.2
                    have hvaults : (s.goals fromG).vault = (s.goals toG).vault :=
                      not_not.mp hvaults'
                    have htoid : (s.goals toG).id ≠ 0 := (not_not.mp hids').2
                    have hamem : (s.attachments fromG)[idx]?
                        = some ((s.attachments fromG)[idx]) :=
                      List.getElem?_eq_getElem hidxlt
                    have hInvMid : Inv { s with
                        attachments := upd s.attachments fromG
                          (swapRemove (s.attachments fromG) idx)
                        depositToGoal := upd s.depositToGoal
                          (depositKey (s.goals fromG).vault sender did) 0 } := by
                      refine inv_remove_att s _ fromG idx
                        ((s.attachments fromG)[idx]) hamem
                        ?_ ?_ ?_ ?_ ?_ ?_ hInv
                      · simp
                      · intro g2 hg2
                        simp [hg2]
                      · rfl
                      · rfl
                      · simp [depositKey, howner, hdid]
                      · intro k hk
                        apply upd_ne
                        simp only [depositKey]
                        rw [howner, hdid] at hk
                        exact hk
                    have hb : ¬(toG = 0 ∨ s.goalCounter ≤ toG) :=
                      fun hc => htoid (hInv.fresh toG hc).1
                    push_neg at hb
                    refine inv_append_att _ _ toG
                      ⟨sender, did, now,
                        o.isDepositPledged (s.goals fromG).vault sender did⟩
                      hb.1 ?_ ?_ ?_ ?_ ?_ ?_ ?_ ?_ hInvMid
                    · exact hb.2
                    · simp
                    · intro g2 hg2
                      simp [hg2]
                    · rfl
                    · rfl
                    · simp [depositKey, hvaults]
                    · intro k hk
                      apply upd_ne
                      simpa [depositKey, hvaults] using hk
                    · simp [depositKey, ← hvaults]

theorem inv_detachLoopStep (o : Oracle) (now sender gid gVault : Nat)
    (gCancelled : Bool) (s : GMState) (idx : Nat) (s' : GMState)
    (hv : gVault = (s.goals gid).vault)
    (h : detachLoopStep o now sender gid gVault gCancelled s idx = .ok s')
    (hInv : Inv s) : Inv s' := by
  subst hv
  simp only [detachLoopStep] at h
  cases ha : (s.attachments gid)[idx]? with
  | none => simp only [ha] at h; cases h
  | some a =>
    simp only [ha] at h
    split at h
    · cases h
    · split at h
      · cases h
      · split at h
        · cases h
        · have hrec := Except.ok.inj h
          subst hrec
          refine inv_remove_att s _ gid idx a ha ?_ ?_ ?_ ?_ ?_ ?_ hInv
          · simp
          · intro g2 hg2
            simp [hg2]
          · rfl
          · rfl
          · simp [depositKey]
          · intro k hk
            apply upd_ne
            simpa [depositKey] using hk

theorem detachLoopStep_ok_meta (o : Oracle) (now sender gid gVault : Nat)
    (gCancelled : Bool) (s : GMState) (idx : Nat) (s' : GMState)
    (h : detachLoopStep o now sender gid gVault gCancelled s idx = .ok s') :
    s'.goals = s.goals ∧ s'.goalCounter = s.goalCounter := by
  simp only [detachLoopStep] at h
  cases ha : (s.attachments gid)[idx]? with
  | none => simp only [ha] at h; cases h
  | some a =>
    simp only [ha] at h
    repeat' split at h
    all_goals cases h
    exact ⟨rfl, rfl⟩

theorem inv_detach_fold (o : Oracle) (now sender gid gVault : Nat)
    (gCancelled : Bool) :
    ∀ (indices : List Nat) (s s' : GMState), gVault = (s.goals gid).vault →
      indices.foldlM (detachLoopStep o now sender gid gVault gCancelled) s = .ok s' →
      Inv s → Inv s' := by
  intro indices
  induction indices with
  | nil =>
    intro s s' _ h hInv
    obtain rfl : s = s' := Except.ok.inj h
    exact hInv
  | cons idx rest ih =>
    intro s s' hv h hInv
    rw [List.foldlM_cons] at h
    cases hstep : detachLoopStep o now sender gid gVault gCancelled s idx with
    | error e => rw [hstep] at h; cases h
    | ok s1 =>
      rw [hstep, except_bind_ok] at h
      have hmeta := detachLoopStep_ok_meta o now sender gid gVault gCancelled s idx s1 hstep
      exact ih s1 s' (by rw [hmeta.1]; exact hv) h
        (inv_detachLoopStep o now sender gid gVault gCancelled s idx s1 hv hstep hInv)

theorem inv_detachAttachments (o : Oracle) (now sender gid : Nat)
    (indices : List Nat) (s s' : GMState)
    (h : detachAttachments o now sender gid indices s = .ok s') (hInv : Inv s) :
    Inv s' := by
  simp only [detachAttachments] at h
  split at h
  · cases h
  · split at h
    · cases h
    · cases hchk : checkIndices (s.attachments gid).length none indices with
      | error e => simp only [hchk] at h; cases h
      | ok u =>
        simp only [hchk] at h
        exact inv_detach_fold o now sender gid (s.goals gid).vault (s.goals gid).cancelled
          indices s s' rfl h hInv

theorem countP_set_same_key (p : Attachment → Bool) :
    ∀ (l : List Attachment) (i : Nat) (a a' : Attachment), l[i]? = some a →
      p a' = p a → List.countP p (l.set i a') = List.countP p l := by
  intro l
  induction l with
  | nil =>
    intro i a a' h _
    simp at h
  | cons b t ih =>
    intro i a a' h hpp
    cases i with
    | zero =>
      simp at h
      subst h
      simp [List.countP_cons, hpp]
    | succ n =>
      simp at h
      simp only [List.set_cons_succ, List.countP_cons]
      rw [ih n a a' h hpp]

theorem inv_set_goal_flag (s s' : GMState) (gid : Nat) (g' : Goal)
    (hvault : g'.vault = (s.goals gid).vault)
    (hgoals : s'.goals = upd s.goals gid g')
    (hatt : s'.attachments = s.attachments)
    (hdtg : s'.depositToGoal = s.depositToGoal)
    (hcounter : s'.goalCounter = s.goalCounter)
    (hgid : (s.goals gid).id ≠ 0) (hInv : Inv s) : Inv s' := by
  have hcnt : ∀ g v o2 d2, cnt s' g v o2 d2 = cnt s g v o2 d2 := by
    intro g v o2 d2
    unfold cnt
    rw [hgoals, hatt]
    by_cases hgg : g = gid
    · subst hgg
      rw [upd_same, hvault]
    · rw [upd_ne _ _ _ hgg]
  refine ⟨by rw [hcounter]; exact hInv.counter_pos, ?_, ?_, ?_, ?_⟩
  · intro g hg
    rw [hcounter] at hg
    have hne : g ≠ gid := by
      rintro rfl
      exact hgid (hInv.fresh g hg).1
    rw [hgoals, upd_ne _ _ _ hne, hatt]
    exact hInv.fresh g hg
  · intro k hk
    rw [hdtg] at hk ⊢
    rw [hcounter]
    exact hInv.key_lt k hk
  · intro v o2 d2 hz g2
    rw [hdtg] at hz
    rw [hcnt]
    exact hInv.uniq0 v o2 d2 hz g2
  · intro v o2 d2 hnz
    rw [hdtg] at hnz ⊢
    obtain ⟨h1, h2⟩ := hInv.uniq1 v o2 d2 hnz
    exact ⟨by rw [hcnt]; exact h1, fun g hg => by rw [hcnt]; exact h2 g hg⟩

theorem inv_cancel (o : Oracle) (sender gid : Nat) (s s' : GMState)
    (h : cancelGoal o sender gid s = .ok s') (hInv : Inv s) : Inv s' := by
  simp only [cancelGoal] at h
  split at h
  · cases h
  · rename_i hgid
    split at h
    · cases h
    · split at h
      · cases h
      · split at h
        · cases h
        · have hrec := Except.ok.inj h
          subst hrec
          exact inv_set_goal_flag s _ gid { s.goals gid with cancelled := true }
            rfl rfl rfl rfl rfl hgid hInv

theorem inv_finalize (o : Oracle) (sender gid : Nat) (s s' : GMState)
    (h : finalizeGoalIfCompleted o sender gid s = .ok s') (hInv : Inv s) : Inv s' := by
  simp only [finalizeGoalIfCompleted] at h
  split at h
  · cases h
  · split at h
    · cases h
    · rename_i hvalid
      split at h
      · have hrec := Except.ok.inj h
        subst hrec
        exact inv_set_goal_flag s _ gid { s.goals gid with completed := true }
          rfl rfl rfl rfl rfl (not_not.mp hvalid).1 hInv
      · cases h

theorem inv_reportPledged (o : Oracle) (sender gid did : Nat) (s s' : GMState)
    (h : reportPledgedAttachment o sender gid did s = .ok s') (hInv : Inv s) : Inv s' := by
  simp only [reportPledgedAttachment] at h
  split at h
  · cases h
  · rename_i hgid
    cases hfind : findFirstIdx (fun a => a.owner == sender && a.depositId == did)
        (s.attachments gid) with
    | none => simp only [hfind] at h; cases h
    | some i =>
      simp only [hfind] at h
      split at h
      · cases h
      · have hrec := Except.ok.inj h
        subst hrec
        obtain ⟨hlt, hp⟩ := findFirstIdx_some hfind
        have hgetD : (s.attachments gid).getD i dfltAttachment
            = (s.attachments gid).get ⟨i, hlt⟩ := by
          rw [List.getD_eq_getElem _ _ hlt]
          rfl
        have hcnt : ∀ g v o2 d2,
            cnt { s with attachments := (upd s.attachments gid ((s.attachments gid).set i { (s.attachments gid).getD i dfltAttachment with pledged := true })) } g v o2 d2 = cnt s g v o2 d2 := by
          intro g v o2 d2
          unfold cnt
          by_cases hgg : g = gid
          · subst hgg
            simp only [upd_same]
            rw [countP_set_same_key (keyMatch o2 d2) (s.attachments g) i
              ((s.attachments g).get ⟨i, hlt⟩)
              { (s.attachments g).getD i dfltAttachment with pledged := true }
              (by rw [List.getElem?_eq_getElem hlt]; rfl)
              (by rw [hgetD]; simp [keyMatch])]
          · simp only [upd_ne _ _ _ hgg]
        refine ⟨hInv.counter_pos, ?_, hInv.key_lt, ?_, ?_⟩
        · intro g hg
          have hf := hInv.fresh g hg
          refine ⟨hf.1, ?_⟩
          by_cases hgg : g = gid
          · subst hgg
            simp only [upd_same]
            rw [hf.2]
            rfl
          · simp only [upd_ne _ _ _ hgg]
            exact hf.2
        · intro v o2 d2 hz g2
          rw [hcnt]
          exact hInv.uniq0 v o2 d2 hz g2
        · intro v o2 d2 hnz
          obtain ⟨h1, h2⟩ := hInv.uniq1 v o2 d2 hnz
          exact ⟨by rw [hcnt]; exact h1, fun g hg => by rw [hcnt]; exact h2 g hg⟩

theorem inv_step (s s' : GMState) (h : Step s s') (hInv : Inv s) : Inv s' := by
  cases h with
  | createGoal now sender vault ta td uri _ gid _ heq =>
    exact inv_createGoalInternal now sender vault ta td uri s gid s' heq hInv
  | createGoalFor now sender creator vault ta td uri _ gid _ heq =>
    simp only [createGoalFor] at heq
    split at heq
    · cases heq
    · split at heq
      · cases heq
      · exact inv_createGoalInternal now creator vault ta td uri s gid s' heq hInv
  | createQuicksaveGoalFor now sender user vault _ gid _ heq =>
    simp only [createQuicksaveGoalFor] at heq
    split at heq
    · cases heq
    · split at heq
      · cases heq
      · split at heq
        · cases heq
        · split at heq
          · cases heq
          · split at heq
            · cases heq
            · have h2 := Except.ok.inj heq
              obtain ⟨h3, h4⟩ := Prod.mk.inj h2
              subst h4
              exact inv_createQuicksaveInternal now user vault s hInv
  | autoAttach o now sender user vault did _ _ heq =>
    exact inv_autoAttach o now sender user vault did s s' heq hInv
  | attachOnBehalf o now sender gid owner ids _ _ heq =>
    exact inv_attachDepositsOnBehalf o now sender gid owner ids s s' heq hInv
  | attach o now sender gid ids _ _ heq =>
    exact inv_attachDeposits o now sender gid ids s s' heq hInv
  | transfer o now sender fromG toG did _ _ heq =>
    exact inv_transfer o now sender fromG toG did s s' heq hInv
  | detach o now sender gid indices _ _ heq =>
    exact inv_detachAttachments o now sender gid indices s s' heq hInv
  | reportPledged o sender gid did _ _ heq =>
    exact inv_reportPledged o sender gid did s s' heq hInv
  | cancel o sender gid _ _ heq =>
    exact inv_cancel o sender gid s s' heq hInv
  | finalize o sender gid _ _ heq =>
    exact inv_finalize o sender gid s s' heq hInv
  | setCreationPaused sender b _ _ heq =>
    simp only [GoalManager.setCreationPaused] at heq
    split at heq
    · cases heq
    · have hrec := Except.ok.inj heq
      subst hrec
      exact inv_of_eq s _ rfl rfl rfl rfl hInv
  | setAttachmentsPaused sender b _ _ heq =>
    simp only [GoalManager.setAttachmentsPaused] at heq
    split at heq
    · cases heq
    · have hrec := Except.ok.inj heq
      subst hrec
      exact inv_of_eq s _ rfl rfl rfl rfl hInv
  | updateAttachmentLimits sender perGoal perUser _ _ heq =>
    simp only [GoalManager.updateAttachmentLimits] at heq
    split at heq
    · cases heq
    · split at heq
      · cases heq
      · have hrec := Except.ok.inj heq
        subst hrec
        exact inv_of_eq s _ rfl rfl rfl rfl hInv
  | setNotifier sender addr allowed _ _ heq =>
    simp only [GoalManager.setNotifier] at heq
    split at heq
    · cases heq
    · split at heq
      · cases heq
      · have hrec := Except.ok.inj heq
        subst hrec
        exact inv_of_eq s _ rfl rfl rfl rfl hInv
  | setLeaderboard sender addr _ _ heq =>
    simp only [GoalManager.setLeaderboard] at heq
    split at heq
    · cases heq
    · have hrec := Except.ok.inj heq
      subst hrec
      exact inv_of_eq s _ rfl rfl rfl rfl hInv
  | setRole sender role account val _ _ heq =>
    simp only [setRoleMembership] at heq
    split at heq
    · cases heq
    · have hrec := Except.ok.inj heq
      subst hrec
      exact inv_of_eq s _ rfl rfl rfl rfl hInv

theorem inv_reachable (s0 s : GMState) (h : Reachable s0 s) (h0 : Inv s0) : Inv s := by
  induction h with
  | refl => exact h0
  | tail h1 h2 ih => exact inv_step _ _ h2 ih

/-- Goal `g` holds the deposit key `(v, o, d)`: the goal lives on vault `v`
and its sequence contains an attachment of owner `o` and deposit id `d`. -/
def Holds (s : GMState) (g v o d : Nat) : Prop :=
  (s.goals g).vault = v ∧ ∃ a ∈ s.attachments g, a.owner = o ∧ a.depositId = d

theorem holds_iff_cnt_pos (s : GMState) (g v o d : Nat) :
    Holds s g v o d ↔ 0 < cnt s g v o d := by
  unfold Holds cnt
  constructor
  · rintro ⟨hv, a, hmem, ho, hd⟩
    rw [if_pos hv]
    exact List.countP_pos.mpr ⟨a, hmem, by simp [keyMatch, ho, hd]⟩
  · intro hpos
    by_cases hv : (s.goals g).vault = v
    · rw [if_pos hv] at hpos
      obtain ⟨a, hmem, hpa⟩ := List.countP_pos.mp hpos
      simp [keyMatch] at hpa
      exact ⟨hv, a, hmem, hpa.1, hpa.2⟩
    · rw [if_neg hv] at hpos
      omega

/-- Claim C1: in every state reachable from a freshly initialized contract
by successful calls, each deposit key `(vault, owner, depositId)` is held by
at most one goal, `depositToGoal` of a held key names exactly the holding
goal, and the key maps to 0 exactly when no goal holds it. -/
theorem uniqueness_of_attachment (admin mg mu : Nat) (s : GMState)
    (h : Reachable (initialState admin mg mu) s) (v o d : Nat) :
    (∀ g1 g2, Holds s g1 v o d → Holds s g2 v o d → g1 = g2)
    ∧ (∀ g, Holds s g v o d → s.depositToGoal (v, o, d) = g ∧ g ≠ 0)
    ∧ (s.depositToGoal (v, o, d) = 0 ↔ ∀ g, ¬ Holds s g v o d) := by
  have hInv := inv_reachable _ _ h (inv_initialState admin mg mu)
  have hmain : ∀ g, Holds s g v o d → s.depositToGoal (v, o, d) = g ∧ g ≠ 0 := by
    intro g hg
    have hpos := (holds_iff_cnt_pos s g v o d).mp hg
    by_cases hz : s.depositToGoal (v, o, d) = 0
    · have := hInv.uniq0 v o d hz g
      omega
    · obtain ⟨h1, h2⟩ := hInv.uniq1 v o d hz
      by_cases hgg : g = s.depositToGoal (v, o, d)
      · exact ⟨hgg.symm, by rw [hgg]; exact hz⟩
      · have := h2 g hgg
        omega
  refine ⟨?_, hmain, ?_, ?_⟩
  · intro g1 g2 h1 h2
    have e1 := (hmain g1 h1).1
    have e2 := (hmain g2 h2).1
    omega
  · intro hz g hg
    have hpos := (holds_iff_cnt_pos s g v o d).mp hg
    have := hInv.uniq0 v o d hz g
    omega
  · intro hnone
    by_contra hnz
    obtain ⟨h1, h2⟩ := hInv.uniq1 v o d hnz
    exact hnone (s.depositToGoal (v, o, d))
      ((holds_iff_cnt_pos s (s.depositToGoal (v, o, d)) v o d).mpr (by omega))

/-- Witness for C1: `sA2` is reachable from the fresh contract by a create
and an attach; goal 1 holds the key `(1, 5, 1)`, so `depositToGoal` names
goal 1 for it. -/
theorem uniqueness_of_attachment_witness :
    sA2.depositToGoal (1, 5, 1) = 1 ∧ (1 : Nat) ≠ 0 := by
  have hstep1 : Step sA0 sA1 :=
    Step.createGoal 0 5 1 10 2592000 "" sA0 1 sA1 (by rfl)
  have hstep2 : Step sA1 sA2 :=
    Step.attach demoOracle 0 5 1 [1] sA1 sA2 (by rfl)
  have hreach : Reachable (initialState 7 0 0) sA2 :=
    Relation.ReflTransGen.tail (Relation.ReflTransGen.tail Relation.ReflTransGen.refl
      hstep1) hstep2
  exact (uniqueness_of_attachment 7 0 0 sA2 hreach 1 5 1).2.1 1
    ⟨by decide, ⟨5, 1, 0, false⟩, by decide, rfl, rfl⟩

/-! ### C3: capacity -/

/-- Goal-level capacity: no goal's sequence exceeds `maxAttachmentsPerGoal`. -/
def CapInv (s : GMState) : Prop :=
  ∀ g, (s.attachments g).length ≤ s.maxAttachmentsPerGoal

theorem length_swapRemove_le {α : Type} (l : List α) (idx : Nat) :
    (swapRemove l idx).length ≤ l.length := by
  unfold swapRemove
  cases l.getLast? with
  | none => exact le_refl _
  | some b =>
    rw [List.length_dropLast, List.length_set]
    omega

theorem attach_fold_len (o : Oracle) (now gVault : Nat) (isQ : Bool)
    (gid owner : Nat) :
    ∀ (ids : List Nat) (s s' : GMState),
      ids.foldlM (attachLoopStep o now gVault isQ gid owner) s = .ok s' →
      (s'.attachments gid).length = (s.attachments gid).length + ids.length
      ∧ (∀ g2, g2 ≠ gid → s'.attachments g2 = s.attachments g2)
      ∧ s'.maxAttachmentsPerGoal = s.maxAttachmentsPerGoal
      ∧ s'.maxAttachmentsPerUser = s.maxAttachmentsPerUser
      ∧ (s'.attachments gid).countP (fun a => a.owner == owner)
          = (s.attachments gid).countP (fun a => a.owner == owner) + ids.length := by
  intro ids
  induction ids with
  | nil =>
    intro s s' h
    obtain rfl : s = s' := Except.ok.inj h
    exact ⟨by simp, fun _ _ => rfl, rfl, rfl, by simp⟩
  | cons d rest ih =>
    intro s s' h
    rw [List.foldlM_cons] at h
    cases hstep : attachLoopStep o now gVault isQ gid owner s d with
    | error e => rw [hstep] at h; cases h
    | ok s1 =>
      rw [hstep, except_bind_ok] at h
      obtain ⟨hatt, hoth, -, -, -, -, -, -, hmg, hmu⟩ :=
        attachLoopStep_ok_state o now gVault isQ gid owner s d s1 hstep
      obtain ⟨ihlen, ihoth, ihmg, ihmu, ihcnt⟩ := ih s1 s' h
      refine ⟨?_, ?_, by rw [ihmg, hmg], by rw [ihmu, hmu], ?_⟩
      · rw [ihlen, hatt]
        simp
        omega
      · intro g2 hg2
        rw [ihoth g2 hg2, hoth g2 hg2]
      · rw [ihcnt, hatt, List.countP_append]
        simp [List.countP_cons]
        omega

theorem attachDeposits_cap (o : Oracle) (now sender gid : Nat) (ids : List Nat)
    (s s' : GMState) (h : attachDeposits o now sender gid ids s = .ok s') :
    (s'.attachments gid).length ≤ s.maxAttachmentsPerGoal
    ∧ (s'.attachments gid).countP (fun a => a.owner == sender)
        ≤ s.maxAttachmentsPerUser
    ∧ (∀ g2, g2 ≠ gid → s'.attachments g2 = s.attachments g2)
    ∧ s'.maxAttachmentsPerGoal = s.maxAttachmentsPerGoal
    ∧ s'.maxAttachmentsPerUser = s.maxAttachmentsPerUser := by
  simp only [attachDeposits] at h
  split at h
  · cases h
  · split at h
    · cases h
    · split at h
      · cases h
      · split at h
        · cases h
        · split at h
          · cases h
          · rename_i hcapG
            split at h
            · cases h
            · rename_i hcapU
              obtain ⟨hlen, hoth, hmg, hmu, hcnt⟩ :=
                attach_fold_len o now (s.goals gid).vault _ gid sender ids s s' h
              have hG := not_not.mp hcapG
              have hU := not_not.mp hcapU
              exact ⟨by omega, by omega, hoth, hmg, hmu⟩

theorem attachDepositsOnBehalf_cap (o : Oracle) (now sender gid owner : Nat)
    (ids : List Nat) (s s' : GMState)
    (h : attachDepositsOnBehalf o now sender gid owner ids s = .ok s') :
    (s'.attachments gid).length ≤ s.maxAttachmentsPerGoal
    ∧ (s'.attachments gid).countP (fun a => a.owner == owner)
        ≤ s.maxAttachmentsPerUser
    ∧ (∀ g2, g2 ≠ gid → s'.attachments g2 = s.attachments g2)
    ∧ s'.maxAttachmentsPerGoal = s.maxAttachmentsPerGoal
    ∧ s'.maxAttachmentsPerUser = s.maxAttachmentsPerUser := by
  simp only [attachDepositsOnBehalf] at h
  split at h
  · cases h
  · split at h
    · cases h
    · split at h
      · cases h
      · split at h
        · cases h
        · split at h
          · cases h
          · split at h
            · cases h
            · rename_i hcapG
              split at h
              · cases h
              · rename_i hcapU
                obtain ⟨hlen, hoth, hmg, hmu, hcnt⟩ :=
                  attach_fold_len o now (s.goals gid).vault _ gid owner ids s s' h
                have hG := not_not.mp hcapG
                have hU := not_not.mp hcapU
                exact ⟨by omega, by omega, hoth, hmg, hmu⟩

theorem attachOnBehalfSingle_cap (o : Oracle) (now gid owner did : Nat)
    (s s' : GMState) (h : attachDepositOnBehalfSingle o now gid owner did s = .ok s') :
    (s'.attachments gid).length ≤ s.maxAttachmentsPerGoal
    ∧ (∀ g2, g2 ≠ gid → s'.attachments g2 = s.attachments g2)
    ∧ s'.maxAttachmentsPerGoal = s.maxAttachmentsPerGoal
    ∧ s'.maxAttachmentsPerUser = s.maxAttachmentsPerUser := by
  simp only [attachDepositOnBehalfSingle] at h
  split at h
  · cases h
  · split at h
    · cases h
    · rename_i hcapG
      split at h
      · cases h
      · obtain ⟨hatt, hoth, -, -, -, -, -, -, hmg, hmu⟩ :=
          attachLoopStep_ok_state _ _ _ _ _ _ _ _ _ h
        have hG := not_not.mp hcapG
        refine ⟨?_, hoth, hmg, hmu⟩
        rw [hatt]
        simp
        omega

theorem detachLoopStep_ok_caps (o : Oracle) (now sender gid gVault : Nat)
    (gCancelled : Bool) (s : GMState) (idx : Nat) (s' : GMState)
    (h : detachLoopStep o now sender gid gVault gCancelled s idx = .ok s') :
    (∀ g2, g2 ≠ gid → s'.attachments g2 = s.attachments g2)
    ∧ (s'.attachments gid).length ≤ (s.attachments gid).length
    ∧ s'.maxAttachmentsPerGoal = s.maxAttachmentsPerGoal
    ∧ s'.maxAttachmentsPerUser = s.maxAttachmentsPerUser := by
  simp only [detachLoopStep] at h
  cases ha : (s.attachments gid)[idx]? with
  | none => simp only [ha] at h; cases h
  | some a =>
    simp only [ha] at h
    repeat' split at h
    all_goals cases h
    refine ⟨fun g2 hg2 => by simp [hg2], ?_, rfl, rfl⟩
    simp only [upd_same]
    exact length_swapRemove_le _ _

theorem detach_fold_caps (o : Oracle) (now sender gid gVault : Nat)
    (gCancelled : Bool) :
    ∀ (indices : List Nat) (s s' : GMState),
      indices.foldlM (detachLoopStep o now sender gid gVault gCancelled) s = .ok s' →
      (∀ g2, g2 ≠ gid → s'.attachments g2 = s.attachments g2)
      ∧ (s'.attachments gid).length ≤ (s.attachments gid).length
      ∧ s'.maxAttachmentsPerGoal = s.maxAttachmentsPerGoal
      ∧ s'.maxAttachmentsPerUser = s.maxAttachmentsPerUser := by
  intro indices
  induction indices with
  | nil =>
    intro s s' h
    obtain rfl : s = s' := Except.ok.inj h
    exact ⟨fun _ _ => rfl, le_refl _, rfl, rfl⟩
  | cons idx rest ih =>
    intro s s' h
    rw [List.foldlM_cons] at h
    cases hstep : detachLoopStep o now sender gid gVault gCancelled s idx with
    | error e => rw [hstep] at h; cases h
    | ok s1 =>
      rw [hstep, except_bind_ok] at h
      obtain ⟨hoth1, hlen1, hmg1, hmu1⟩ :=
        detachLoopStep_ok_caps o now sender gid gVault gCancelled s idx s1 hstep
      obtain ⟨hoth2, hlen2, hmg2, hmu2⟩ := ih s1 s' h
      exact ⟨fun g2 hg2 => by rw [hoth2 g2 hg2, hoth1 g2 hg2],
        le_trans hlen2 hlen1, by rw [hmg2, hmg1], by rw [hmu2, hmu1]⟩

theorem cap_step (s s' : GMState) (h : Step s s')
    (hmg : s'.maxAttachmentsPerGoal = s.maxAttachmentsPerGoal)
    (hcap : CapInv s) : CapInv s' := by
  suffices hsuff : ∀ g, (s'.attachments g).length ≤ s.maxAttachmentsPerGoal by
    intro g
    rw [hmg]
    exact hsuff g
  cases h with
  | createGoal now sender vault ta td uri _ gid _ heq =>
    simp only [createGoal, createGoalInternal] at heq
    repeat' split at heq
    all_goals try (cases heq; done)
    all_goals
      (obtain ⟨-, h4⟩ := Prod.mk.inj (Except.ok.inj heq); subst h4; intro g; exact hcap g)
  | createGoalFor now sender creator vault ta td uri _ gid _ heq =>
    simp only [createGoalFor, createGoalInternal] at heq
    repeat' split at heq
    all_goals try (cases heq; done)
    all_goals
      (obtain ⟨-, h4⟩ := Prod.mk.inj (Except.ok.inj heq); subst h4; intro g; exact hcap g)
  | createQuicksaveGoalFor now sender user vault _ gid _ heq =>
    simp only [createQuicksaveGoalFor, createQuicksaveInternal] at heq
    repeat' split at heq
    all_goals try (cases heq; done)
    all_goals
      (obtain ⟨-, h4⟩ := Prod.mk.inj (Except.ok.inj heq); subst h4; intro g; exact hcap g)
  | autoAttach o now sender user vault did _ _ heq =>
    simp only [autoAttachToQuicksave] at heq
    split at heq
    · cases heq
    · split at heq
      · cases heq
      · split at heq
        · cases heq
        · split at heq
          · obtain ⟨hlen, hoth, -, -⟩ := attachOnBehalfSingle_cap _ _ _ _ _ _ _ heq
            intro g
            by_cases hg : g = (createQuicksaveInternal now user vault s).1
            · subst hg
              exact hlen
            · rw [hoth g hg]
              exact hcap g
          · obtain ⟨hlen, hoth, -, -⟩ := attachOnBehalfSingle_cap _ _ _ _ _ _ _ heq
            intro g
            by_cases hg : g = s.quicksaveGoalOf vault user
            · subst hg
              exact hlen
            · rw [hoth g hg]
              exact hcap g
  | attachOnBehalf o now sender gid owner ids _ _ heq =>
    obtain ⟨hlen, -, hoth, -, -⟩ := attachDepositsOnBehalf_cap _ _ _ _ _ _ _ _ heq
    intro g
    by_cases hg : g = gid
    · subst hg
      exact hlen
    · rw [hoth g hg]
      exact hcap g
  | attach o now sender gid ids _ _ heq =>
    obtain ⟨hlen, -, hoth, -, -⟩ := attachDeposits_cap _ _ _ _ _ _ _ heq
    intro g
    by_cases hg : g = gid
    · subst hg
      exact hlen
    · rw [hoth g hg]
      exact hcap g
  | transfer o now sender fromG toG did _ _ heq =>
    simp only [transferDeposit] at heq
    split at heq
    · cases heq
    · rename_i hne
      split at heq
      · cases heq
      · split at heq
        · cases heq
        · split at heq
          · cases heq
          · cases hfind : findFirstIdx (fun a => a.owner == sender && a.depositId == did)
                (s.attachments fromG) with
            | none => simp only [hfind] at heq; cases heq
            | some idx =>
              simp only [hfind] at heq
              split at heq
              · cases heq
              · split at heq
                · cases heq
                · rename_i hcapTo
                  split at heq
                  · cases heq
                  · split at heq
                    · cases heq
                    · have hrec := Except.ok.inj heq
                      subst hrec
                      have hTo := not_not.mp hcapTo
                      intro g
                      by_cases hg : g = toG
                      · subst hg
                        simp only [upd_same]
                        rw [upd_ne _ _ _ (fun hc => hne hc.symm)]
                        simp
                        omega
                      · simp only [upd_ne _ _ _ hg]
                        by_cases hg2 : g = fromG
                        · subst hg2
                          simp only [upd_same]
                          exact le_trans (length_swapRemove_le _ _) (hcap g)
                        · simp only [upd_ne _ _ _ hg2]
                          exact hcap g
  | detach o now sender gid indices _ _ heq =>
    simp only [detachAttachments] at heq
    split at heq
    · cases heq
    · split at heq
      · cases heq
      · cases hchk : checkIndices (s.attachments gid).length none indices with
        | error e => simp only [hchk] at heq; cases heq
        | ok u =>
          simp only [hchk] at heq
          obtain ⟨hoth, hlen, -, -⟩ := detach_fold_caps _ _ _ _ _ _ indices s s' heq
          intro g
          by_cases hg : g = gid
          · subst hg
            exact le_trans hlen (hcap g)
          · rw [hoth g hg]
            exact hcap g
  | reportPledged o sender gid did _ _ heq =>
    simp only [reportPledgedAttachment] at heq
    split at heq
    · cases heq
    · cases hfind : findFirstIdx (fun a => a.owner == sender && a.depositId == did)
          (s.attachments gid) with
      | none => simp only [hfind] at heq; cases heq
      | some i =>
        simp only [hfind] at heq
        split at heq
        · cases heq
        · have hrec := Except.ok.inj heq
          subst hrec
          intro g
          by_cases hg : g = gid
          · subst hg
            simp only [upd_same, List.length_set]
            exact hcap g
          · simp only [upd_ne _ _ _ hg]
            exact hcap g
  | cancel o sender gid _ _ heq =>
    have := cancelGoal_ok o sender gid s _ heq
    subst this
    intro g
    exact hcap g
  | finalize o sender gid _ _ heq =>
    simp only [finalizeGoalIfCompleted] at heq
    repeat' split at heq
    all_goals try (cases heq; done)
    all_goals (have hrec := Except.ok.inj heq; subst hrec; intro g; exact hcap g)
  | setCreationPaused sender b _ _ heq =>
    simp only [GoalManager.setCreationPaused] at heq
    split at heq
    · cases heq
    · have hrec := Except.ok.inj heq
      subst hrec
      intro g
      exact hcap g
  | setAttachmentsPaused sender b _ _ heq =>
    simp only [GoalManager.setAttachmentsPaused] at heq
    split at heq
    · cases heq
    · have hrec := Except.ok.inj heq
      subst hrec
      intro g
      exact hcap g
  | updateAttachmentLimits sender perGoal perUser _ _ heq =>
    simp only [GoalManager.updateAttachmentLimits] at heq
    split at heq
    · cases heq
    · split at heq
      · cases heq
      · have hrec := Except.ok.inj heq
        subst hrec
        intro g
        exact hcap g
  | setNotifier sender addr allowed _ _ heq =>
    simp only [GoalManager.setNotifier] at heq
    split at heq
    · cases heq
    · split at heq
      · cases heq
      · have hrec := Except.ok.inj heq
        subst hrec
        intro g
        exact hcap g
  | setLeaderboard sender addr _ _ heq =>
    simp only [GoalManager.setLeaderboard] at heq
    split at heq
    · cases heq
    · have hrec := Except.ok.inj heq
      subst hrec
      intro g
      exact hcap g
  | setRole sender role account val _ _ heq =>
    simp only [setRoleMembership] at heq
    split at heq
    · cases heq
    · have hrec := Except.ok.inj heq
      subst hrec
      intro g
      exact hcap g

/-- A successful call that leaves both capacity caps unchanged. -/
def StepFixedCaps (s s' : GMState) : Prop :=
  Step s s' ∧ s'.maxAttachmentsPerGoal = s.maxAttachmentsPerGoal
    ∧ s'.maxAttachmentsPerUser = s.maxAttachmentsPerUser

theorem cap_reachable (s0 s : GMState)
    (h : Relation.ReflTransGen StepFixedCaps s0 s) (h0 : CapInv s0) : CapInv s := by
  induction h with
  | refl => exact h0
  | tail h1 h2 ih => exact cap_step _ _ h2.1 h2.2.1 ih

theorem transfer_cap_to (o : Oracle) (now sender fromG toG did : Nat)
    (s s' : GMState) (h : transferDeposit o now sender fromG toG did s = .ok s') :
    (s'.attachments toG).length ≤ s.maxAttachmentsPerGoal := by
  simp only [transferDeposit] at h
  split at h
  · cases h
  · rename_i hne
    split at h
    · cases h
    · split at h
      · cases h
      · split at h
        · cases h
        · cases hfind : findFirstIdx (fun a => a.owner == sender && a.depositId == did)
              (s.attachments fromG) with
          | none => simp only [hfind] at h; cases h
          | some idx =>
            simp only [hfind] at h
            split at h
            · cases h
            · split at h
              · cases h
              · rename_i hcapTo
                split at h
                · cases h
                · split at h
                  · cases h
                  · have hrec := Except.ok.inj h
                    subst hrec
                    have hTo := not_not.mp hcapTo
                    simp only [upd_same]
                    rw [upd_ne _ _ _ (fun hc => hne hc.symm)]
                    simp
                    omega

/-! Counterexample scenario for C3: caps fixed at 3 per goal and 1 per user,
two goals on the same vault, one attachment each by the same owner, then a
transfer consolidates both into goal 1. -/

def sC30 : GMState := initialState 7 3 1

/-- Goal 1 exists (creator 5, vault 1, target 10, window 2592000). -/
def sC31 : GMState := runTx2 (createGoal 0 5 1 10 2592000 "" sC30) sC30

/-- Goal 2 exists with the same parameters and vault. -/
def sC32 : GMState := runTx2 (createGoal 0 5 1 10 2592000 "" sC31) sC31

/-- Deposit 1 attached to goal 1 by owner 5. -/
def sC33 : GMState := runTx (attachDeposits demoOracle 0 5 1 [1]) sC32

/-- Deposit 2 attached to goal 2 by owner 5. -/
def sC34 : GMState := runTx (attachDeposits demoOracle 0 5 2 [2]) sC33

/-- Deposit 2 transferred from goal 2 to goal 1 by owner 5. -/
def sC35 : GMState := runTx (transferDeposit demoOracle 0 5 2 1 2) sC34

/-- C3 counterexample: with maxAttachmentsPerUser = 1, a transfer into goal 1
by an owner who is already at the per-user cap there succeeds, leaving owner 5
with 2 attachments in goal 1; transferDeposit checks only the goal-level cap
at the target, never the per-user cap. -/
theorem transfer_exceeds_per_user_cap :
    (∃ s', transferDeposit demoOracle 0 5 2 1 2 sC34 = .ok s') = True
    ∧ sC34.maxAttachmentsPerUser = 1
    ∧ (sC34.attachments 1).countP (fun a => a.owner == 5) = 1
    ∧ (sC35.attachments 1).countP (fun a => a.owner == 5) = 2 := by
  refine ⟨eq_true ⟨sC35, ?_⟩, by decide, by decide, by decide⟩
  have : (transferDeposit demoOracle 0 5 2 1 2 sC34).isOk = true := by decide
  rw [except_isOk_iff] at this
  obtain ⟨s', hs'⟩ := this
  rw [hs']
  have : sC35 = s' := by rw [sC35, runTx, hs']
  rw [this]

/-- C3 (amended): with both caps held fixed, every reachable state satisfies
the goal-level cap `attachmentCount(g) <= maxAttachmentsPerGoal`; a successful
`attachDeposits` or `attachDepositsOnBehalf` additionally leaves the receiving
owner's count within `maxAttachmentsPerUser` (both caps are enforced by the
attach entry points, which revert on either excess); a successful
`transferDeposit` keeps the receiving goal within the goal-level cap only —
the per-user bound is not part of the transfer checks and is not an invariant
(see the counterexample). -/
theorem capacity_caps (s0 s : GMState)
    (hreach : Relation.ReflTransGen StepFixedCaps s0 s) (hcap0 : CapInv s0) :
    CapInv s
    ∧ (∀ (o : Oracle) (now sender gid : Nat) (ids : List Nat) (s' : GMState),
        attachDeposits o now sender gid ids s = .ok s' →
        attachmentCount gid s' ≤ s.maxAttachmentsPerGoal
        ∧ (s'.attachments gid).countP (fun a => a.owner == sender)
            ≤ s.maxAttachmentsPerUser)
    ∧ (∀ (o : Oracle) (now sender gid owner : Nat) (ids : List Nat) (s' : GMState),
        attachDepositsOnBehalf o now sender gid owner ids s = .ok s' →
        attachmentCount gid s' ≤ s.maxAttachmentsPerGoal
        ∧ (s'.attachments gid).countP (fun a => a.owner == owner)
            ≤ s.maxAttachmentsPerUser)
    ∧ (∀ (o : Oracle) (now sender fromG toG did : Nat) (s' : GMState),
        transferDeposit o now sender fromG toG did s = .ok s' →
        attachmentCount toG s' ≤ s.maxAttachmentsPerGoal) := by
  refine ⟨cap_reachable s0 s hreach hcap0, ?_, ?_, ?_⟩
  · intro o now sender gid ids s' h
    obtain ⟨h1, h2, -, -, -⟩ := attachDeposits_cap o now sender gid ids s s' h
    exact ⟨h1, h2⟩
  · intro o now sender gid owner ids s' h
    obtain ⟨h1, h2, -, -, -⟩ := attachDepositsOnBehalf_cap o now sender gid owner ids s s' h
    exact ⟨h1, h2⟩
  · intro o now sender fromG toG did s' h
    exact transfer_cap_to o now sender fromG toG did s s' h

theorem capacity_caps_witness :
    attachmentCount 1 sC35 ≤ sC35.maxAttachmentsPerGoal :=
  (capacity_caps sC30 sC35
    (Relation.ReflTransGen.tail
      (Relation.ReflTransGen.tail
        (Relation.ReflTransGen.tail
          (Relation.ReflTransGen.tail
            (Relation.ReflTransGen.tail (Relation.ReflTransGen.refl)
              ⟨Step.createGoal 0 5 1 10 2592000 "" sC30 1 sC31 (by rfl),
                by decide, by decide⟩)
            ⟨Step.createGoal 0 5 1 10 2592000 "" sC31 2 sC32 (by rfl),
              by decide, by decide⟩)
          ⟨Step.attach demoOracle 0 5 1 [1] sC32 sC33 (by rfl),
            by decide, by decide⟩)
        ⟨Step.attach demoOracle 0 5 2 [2] sC33 sC34 (by rfl),
          by decide, by decide⟩)
      ⟨Step.transfer demoOracle 0 5 2 1 2 sC34 sC35 (by rfl),
        by decide, by decide⟩)
    (fun g => Nat.zero_le _)).1 1

end GoalManager
